import Mathlib

/-!
# Verification of the `r_snack` terminal snake game core

Shallow embedding of `src/lib.rs`.  The terminal writer (an injected
`Box<dyn Write>`) is outside the model: operations that in Rust only queue
escape sequences on the writer are dropped, and a render operation returns
the list of coordinates it draws in addition to the new state.  Fallible
operations that in Rust mutate `&mut self` and return `io::Result<()>` are
embedded as `Game → ... → Game × Option String`: the returned game is the
receiver's state when the call returns, and `some msg` is the `Err` case.
Randomness (`rand::thread_rng().gen_range(0..len)`) is embedded by passing
the random draw as an explicit `idx : Nat` parameter reduced modulo `len`,
so that every index the generator can produce is covered.
-/

set_option maxRecDepth 100000
set_option maxHeartbeats 2000000

namespace RSnack

/-- `enum CellType` from `src/lib.rs`. -/
inductive CellType where
  | Wall
  | SnackHead
  | SnackBody
  | Food
  | Empty
deriving DecidableEq, Repr

/-- `enum Direction` from `src/lib.rs`. -/
inductive Direction where
  | Left
  | Right
  | Up
  | Down
deriving DecidableEq, Repr

/-- `struct Cell` from `src/lib.rs`: position, dirty flag, type. -/
structure Cell where
  x : Nat
  y : Nat
  changed_flag : Bool
  cell_type : CellType
deriving DecidableEq, Repr

/-- `Cell::set_type`: sets the type and marks the cell dirty. -/
def Cell.set_type (c : Cell) (t : CellType) : Cell :=
  { c with changed_flag := true, cell_type := t }

/-- `struct Snack`: heading, head coordinate, body coordinates.  The Rust
`LinkedList` is used as a deque (push_front / pop_back); it is embedded as a
`List` whose first element is the front (the neck). -/
structure Snack where
  direction : Direction
  head : Nat × Nat
  bodys : List (Nat × Nat)

/-- `struct Game` without the terminal writer: the grid (`cells[x][y]`,
embedded as a total function read only at in-bounds indices), the snake,
the score and the tick interval. -/
structure Game where
  width : Nat
  height : Nat
  cells : Nat → Nat → Cell
  snack : Snack
  score : Nat
  speed : Nat

/-- The in-place mutation `self.cells[x][y].set_type(t)`. -/
def setCellType (g : Game) (x y : Nat) (t : CellType) : Game :=
  { g with cells := fun i j =>
      if i = x ∧ j = y then (g.cells i j).set_type t else g.cells i j }

/-- The direct field assignment `self.cells[x][y].cell_type = t` used during
scene construction in `Game::build_default`: unlike `set_type` it does not
touch the dirty flag. -/
def setCellTypeRaw (g : Game) (x y : Nat) (t : CellType) : Game :=
  { g with cells := fun i j =>
      if i = x ∧ j = y then { g.cells i j with cell_type := t } else g.cells i j }

/-- The initial body laid down in `Game::new`, front (neck) first. -/
def initial_bodys : List (Nat × Nat) :=
  [(8, 7), (8, 8), (7, 8), (7, 9), (7, 10), (8, 10), (8, 11)]

/-- `Game::new`, with the terminal size passed in: rejects a window smaller
than 60×20, otherwise builds the all-Empty grid, the fixed initial snake
(head `(9,7)`, heading Right) and zero score. -/
def Game.new (w h : Nat) : Except String Game :=
  if w < 60 ∨ h < 20 then
    Except.error "窗口尺寸过小"
  else
    Except.ok
      { width := w
        height := h
        cells := fun i j => { x := i, y := j, changed_flag := false, cell_type := CellType.Empty }
        snack :=
          { direction := Direction.Right
            head := (9, 7)
            bodys := initial_bodys }
        score := 0
        speed := 80 }

/-- `Game::turn_around`: the heading is replaced by `dir` exactly in the
eight 90° cases of the Rust `if let`; same-direction and reversal requests
fall through and change nothing. -/
def turn_around (g : Game) (dir : Direction) : Game :=
  match g.snack.direction, dir with
  | Direction.Left, Direction.Up
  | Direction.Left, Direction.Down
  | Direction.Right, Direction.Up
  | Direction.Right, Direction.Down
  | Direction.Up, Direction.Left
  | Direction.Up, Direction.Right
  | Direction.Down, Direction.Left
  | Direction.Down, Direction.Right =>
      { g with snack := { g.snack with direction := dir } }
  | _, _ => g

/-- `Game::go` (a normal move to `(x, y)`): push the old head onto the front
of the body and retype its cell SnackBody, move the head and retype the new
cell SnackHead, then pop the tail (if any) and retype its cell Empty. -/
def go (g : Game) (x y : Nat) : Game :=
  let hd := g.snack.head
  let g1 : Game := { g with snack := { g.snack with bodys := hd :: g.snack.bodys } }
  let g2 := setCellType g1 hd.1 hd.2 CellType.SnackBody
  let g3 : Game := { g2 with snack := { g2.snack with head := (x, y) } }
  let g4 := setCellType g3 x y CellType.SnackHead
  match g4.snack.bodys.getLast? with
  | some p =>
      { setCellType g4 p.1 p.2 CellType.Empty with
          snack := { g4.snack with bodys := g4.snack.bodys.dropLast } }
  | none => g4

/-- `Game::collision_detection`: step one unit from the head in the current
heading using signed arithmetic; a negative coordinate is reported as a Wall
hit at the default coordinate `(0, 0)`, otherwise the cell type at the next
coordinate is returned together with that coordinate.  The Rust body never
writes to `self`, so the embedding is a pure function of the state. -/
def collision_detection (g : Game) : CellType × (Nat × Nat) :=
  let hx := g.snack.head.1
  let hy := g.snack.head.2
  let n : Int × Int :=
    match g.snack.direction with
    | Direction.Left => ((hx : Int) - 1, (hy : Int))
    | Direction.Right => ((hx : Int) + 1, (hy : Int))
    | Direction.Up => ((hx : Int), (hy : Int) - 1)
    | Direction.Down => ((hx : Int), (hy : Int) + 1)
  if n.1 < 0 ∨ n.2 < 0 then
    (CellType.Wall, (0, 0))
  else
    ((g.cells n.1.toNat n.2.toNat).cell_type, (n.1.toNat, n.2.toNat))

/-- The empty-cell collection built at the top of `Game::generage_food`:
iterate the columns in x order, within each column the cells in y order, and
keep `(c.x, c.y)` for every cell whose type is Empty. -/
def empty_cells (g : Game) : List (Nat × Nat) :=
  (List.range g.width).flatMap fun i =>
    (List.range g.height).filterMap fun j =>
      if (g.cells i j).cell_type = CellType.Empty then
        some ((g.cells i j).x, (g.cells i j).y)
      else
        none

/-- `Game::generage_food`: fail with the no-space message when no cell is
Empty, otherwise retype the randomly chosen Empty cell Food.  `idx` stands
for the random draw; `idx % length` ranges over exactly the indices
`gen_range(0..len)` can produce. -/
def generage_food (g : Game) (idx : Nat) : Game × Option String :=
  let ec := empty_cells g
  if ec.isEmpty then
    (g, some "没有足够的空间生成食物")
  else
    let p := ec.getD (idx % ec.length) (0, 0)
    (setCellType g p.1 p.2 CellType.Food, none)

/-- `Game::eat_food` (a growth move to `(x, y)`): first spawn the
replacement food (propagating its failure via `?` before any other
mutation), then push the old head onto the body, move the head onto the
eaten cell, and increment the score. -/
def eat_food (g : Game) (x y : Nat) (idx : Nat) : Game × Option String :=
  match generage_food g idx with
  | (g1, some e) => (g1, some e)
  | (g1, none) =>
      let hd := g1.snack.head
      let g2 : Game := { g1 with snack := { g1.snack with bodys := hd :: g1.snack.bodys } }
      let g3 := setCellType g2 hd.1 hd.2 CellType.SnackBody
      let g4 : Game := { g3 with snack := { g3.snack with head := (x, y) } }
      let g5 := setCellType g4 x y CellType.SnackHead
      ({ g5 with score := g5.score + 1 }, none)

/-- The wall pass of `Game::build_default`: every in-bounds cell on the
border ring gets `cell_type = Wall` by direct assignment (no dirty flag). -/
def build_walls (g : Game) : Game :=
  { g with cells := fun i j =>
      if i < g.width ∧ j < g.height ∧
          (i = 0 ∨ j = 0 ∨ i = g.width - 1 ∨ j = g.height - 1) then
        { g.cells i j with cell_type := CellType.Wall }
      else
        g.cells i j }

/-- The snake pass of `Game::build_default`: the head cell and then each
body cell get their types by direct assignment (no dirty flag). -/
def place_snack (g : Game) : Game :=
  let g1 := setCellTypeRaw g g.snack.head.1 g.snack.head.2 CellType.SnackHead
  g.snack.bodys.foldl (fun acc p => setCellTypeRaw acc p.1 p.2 CellType.SnackBody) g1

/-- `Game::build_default` without the terminal escapes: walls, then snake,
then the first food (whose spawn failure is propagated). -/
def build_default (g : Game) (idx : Nat) : Game × Option String :=
  generage_food (place_snack (build_walls g)) idx

/-- One frame of the `match self.collision_detection()` dispatch inside
`Game::poll`: Wall and SnackBody end the session with their messages,
SnackHead is a defensive no-op, Food runs `eat_food`, Empty runs `go`. -/
def tick (g : Game) (idx : Nat) : Game × Option String :=
  match collision_detection g with
  | (CellType.Wall, _) => (g, some "撞墙")
  | (CellType.SnackHead, _) => (g, none)
  | (CellType.SnackBody, _) => (g, some "自杀")
  | (CellType.Food, p) => eat_food g p.1 p.2 idx
  | (CellType.Empty, p) => (go g p.1 p.2, none)

/-- The list of in-bounds coordinates in the order `cells.iter_mut()`
traverses them: column by column (x outer), cell by cell (y inner). -/
def allCoords (g : Game) : List (Nat × Nat) :=
  (List.range g.width).flatMap fun i => (List.range g.height).map fun j => (i, j)

/-- `Game::render_all`: `Cell::render` is called on every cell in traversal
order; each call draws at `(c.x, c.y)` and clears the cell's dirty flag.
The first component is the list of drawn coordinates, the second the state
with every in-bounds dirty flag cleared. -/
def render_all (g : Game) : List (Nat × Nat) × Game :=
  ((allCoords g).map fun p => ((g.cells p.1 p.2).x, (g.cells p.1 p.2).y),
   { g with cells := fun i j =>
       if i < g.width ∧ j < g.height then
         { g.cells i j with changed_flag := false }
       else
         g.cells i j })

/-- `Game::render_only_updated`: `Cell::render` is called, in the same
traversal order, exactly on the cells whose dirty flag is set, drawing at
`(c.x, c.y)` and clearing the flag. -/
def render_only_updated (g : Game) : List (Nat × Nat) × Game :=
  (((allCoords g).filter fun p => (g.cells p.1 p.2).changed_flag).map
      fun p => ((g.cells p.1 p.2).x, (g.cells p.1 p.2).y),
   { g with cells := fun i j =>
       if i < g.width ∧ j < g.height ∧ (g.cells i j).changed_flag then
         { g.cells i j with changed_flag := false }
       else
         g.cells i j })

/-- The key codes the game loop distinguishes: a character key, Escape, and
everything else (`crossterm::event::KeyCode`'s remaining variants). -/
inductive GKeyCode where
  | Char (c : Char)
  | Esc
  | Other
deriving DecidableEq, Repr

/-- `crossterm::event::KeyEventKind`. -/
inductive GKeyEventKind where
  | Press
  | Repeat
  | Release
deriving DecidableEq, Repr

/-- The part of `crossterm::event::KeyEvent` the loop inspects. -/
structure GKeyEvent where
  code : GKeyCode
  kind : GKeyEventKind
deriving DecidableEq, Repr

/-- The `tmp_key` initialiser in `Game::poll`: a released `'d'`. -/
def initial_tmp_key : GKeyEvent :=
  { code := GKeyCode.Char 'd', kind := GKeyEventKind.Release }

/-- The buffer update in `Game::poll` when a key event is read: any event of
kind Release replaces `tmp_key`; other kinds leave it unchanged. -/
def update_tmp_key (tmp e : GKeyEvent) : GKeyEvent :=
  if e.kind = GKeyEventKind.Release then e else tmp

/-- The per-frame application of the buffered key in `Game::poll`: a
buffered character `a/s/d/w` (either case) requests the matching turn via
`turn_around`; any other buffered key leaves the game untouched. -/
def apply_tmp_key (g : Game) (tmp : GKeyEvent) : Game :=
  match tmp.code with
  | GKeyCode.Char c =>
      if c = 'a' ∨ c = 'A' then turn_around g Direction.Left
      else if c = 's' ∨ c = 'S' then turn_around g Direction.Down
      else if c = 'd' ∨ c = 'D' then turn_around g Direction.Right
      else if c = 'w' ∨ c = 'W' then turn_around g Direction.Up
      else g
  | _ => g

/-- The states a session can be in: the state right after `Game::new` plus a
successful `Game::build_default`, and anything obtained from a reachable
state by a `turn_around` or a successfully completed `tick`. -/
inductive Reachable : Game → Prop where
  | init (w h idx : Nat) (g0 g1 : Game) :
      Game.new w h = Except.ok g0 → build_default g0 idx = (g1, none) → Reachable g1
  | turn (g : Game) (d : Direction) : Reachable g → Reachable (turn_around g d)
  | step (g g' : Game) (idx : Nat) : Reachable g → tick g idx = (g', none) → Reachable g'

/-! ## Basic lemmas about the setters -/

@[simp] theorem Cell.set_type_x (c : Cell) (t : CellType) : (c.set_type t).x = c.x := rfl

@[simp] theorem Cell.set_type_y (c : Cell) (t : CellType) : (c.set_type t).y = c.y := rfl

@[simp] theorem Cell.set_type_flag (c : Cell) (t : CellType) :
    (c.set_type t).changed_flag = true := rfl

@[simp] theorem Cell.set_type_type (c : Cell) (t : CellType) :
    (c.set_type t).cell_type = t := rfl

@[simp] theorem setCellType_cells (g : Game) (x y : Nat) (t : CellType) (i j : Nat) :
    (setCellType g x y t).cells i j =
      if i = x ∧ j = y then (g.cells i j).set_type t else g.cells i j := rfl

@[simp] theorem setCellType_width (g : Game) (x y : Nat) (t : CellType) :
    (setCellType g x y t).width = g.width := rfl

@[simp] theorem setCellType_height (g : Game) (x y : Nat) (t : CellType) :
    (setCellType g x y t).height = g.height := rfl

@[simp] theorem setCellType_snack (g : Game) (x y : Nat) (t : CellType) :
    (setCellType g x y t).snack = g.snack := rfl

@[simp] theorem setCellType_score (g : Game) (x y : Nat) (t : CellType) :
    (setCellType g x y t).score = g.score := rfl

@[simp] theorem setCellTypeRaw_cells (g : Game) (x y : Nat) (t : CellType) (i j : Nat) :
    (setCellTypeRaw g x y t).cells i j =
      if i = x ∧ j = y then { g.cells i j with cell_type := t } else g.cells i j := rfl

@[simp] theorem setCellTypeRaw_width (g : Game) (x y : Nat) (t : CellType) :
    (setCellTypeRaw g x y t).width = g.width := rfl

@[simp] theorem setCellTypeRaw_height (g : Game) (x y : Nat) (t : CellType) :
    (setCellTypeRaw g x y t).height = g.height := rfl

@[simp] theorem setCellTypeRaw_snack (g : Game) (x y : Nat) (t : CellType) :
    (setCellTypeRaw g x y t).snack = g.snack := rfl

@[simp] theorem setCellTypeRaw_score (g : Game) (x y : Nat) (t : CellType) :
    (setCellTypeRaw g x y t).score = g.score := rfl

/-! ## Characterisation of `go` -/

/-- The tail coordinate popped by `go`: the last element of the body after
the old head has been pushed on the front. -/
def goTail (g : Game) : Nat × Nat :=
  (g.snack.head :: g.snack.bodys).getLast (List.cons_ne_nil _ _)

theorem go_width (g : Game) (x y : Nat) : (go g x y).width = g.width := by
  simp only [go, List.getLast?_eq_getLast _ (List.cons_ne_nil _ _)]
  rfl

theorem go_height (g : Game) (x y : Nat) : (go g x y).height = g.height := by
  simp only [go, List.getLast?_eq_getLast _ (List.cons_ne_nil _ _)]
  rfl

theorem go_score (g : Game) (x y : Nat) : (go g x y).score = g.score := by
  simp only [go, List.getLast?_eq_getLast _ (List.cons_ne_nil _ _)]
  rfl

theorem go_direction (g : Game) (x y : Nat) :
    (go g x y).snack.direction = g.snack.direction := by
  simp only [go, List.getLast?_eq_getLast _ (List.cons_ne_nil _ _)]
  rfl

theorem go_head (g : Game) (x y : Nat) : (go g x y).snack.head = (x, y) := by
  simp only [go, List.getLast?_eq_getLast _ (List.cons_ne_nil _ _)]
  rfl

theorem go_bodys (g : Game) (x y : Nat) :
    (go g x y).snack.bodys = (g.snack.head :: g.snack.bodys).dropLast := by
  simp only [go, List.getLast?_eq_getLast _ (List.cons_ne_nil _ _)]
  rfl

theorem go_cells (g : Game) (x y i j : Nat) :
    (go g x y).cells i j =
      (let c1 :=
        if i = g.snack.head.1 ∧ j = g.snack.head.2 then
          (g.cells i j).set_type CellType.SnackBody
        else g.cells i j
       let c2 := if i = x ∧ j = y then c1.set_type CellType.SnackHead else c1
       if i = (goTail g).1 ∧ j = (goTail g).2 then c2.set_type CellType.Empty else c2) := by
  simp only [go, goTail, List.getLast?_eq_getLast _ (List.cons_ne_nil _ _)]
  rfl

theorem go_cell_type (g : Game) (x y i j : Nat) :
    ((go g x y).cells i j).cell_type =
      if i = (goTail g).1 ∧ j = (goTail g).2 then CellType.Empty
      else if i = x ∧ j = y then CellType.SnackHead
      else if i = g.snack.head.1 ∧ j = g.snack.head.2 then CellType.SnackBody
      else (g.cells i j).cell_type := by
  rw [go_cells]
  split_ifs <;> simp_all

theorem go_cell_x (g : Game) (x y i j : Nat) :
    ((go g x y).cells i j).x = (g.cells i j).x := by
  rw [go_cells]
  split_ifs <;> simp

theorem go_cell_y (g : Game) (x y i j : Nat) :
    ((go g x y).cells i j).y = (g.cells i j).y := by
  rw [go_cells]
  split_ifs <;> simp

theorem go_cell_flag (g : Game) (x y i j : Nat) :
    ((go g x y).cells i j).changed_flag =
      if (i = (goTail g).1 ∧ j = (goTail g).2) ∨ (i = x ∧ j = y) ∨
          (i = g.snack.head.1 ∧ j = g.snack.head.2) then true
      else (g.cells i j).changed_flag := by
  rw [go_cells]
  split_ifs <;> simp_all <;> tauto

/-! ## Characterisation of `empty_cells`, `generage_food` and `eat_food` -/

theorem mem_empty_cells (g : Game) (p : Nat × Nat) :
    p ∈ empty_cells g ↔
      ∃ i, i < g.width ∧ ∃ j, j < g.height ∧
        (g.cells i j).cell_type = CellType.Empty ∧ p = ((g.cells i j).x, (g.cells i j).y) := by
  simp only [empty_cells, List.mem_flatMap, List.mem_filterMap, List.mem_range]
  constructor
  · rintro ⟨i, hi, j, hj, hsome⟩
    by_cases hE : (g.cells i j).cell_type = CellType.Empty
    · rw [if_pos hE] at hsome
      exact ⟨i, hi, j, hj, hE, (Option.some_inj.mp hsome).symm⟩
    · rw [if_neg hE] at hsome
      exact absurd hsome (by simp)
  · rintro ⟨i, hi, j, hj, hE, hp⟩
    exact ⟨i, hi, j, hj, by rw [if_pos hE, hp]⟩

theorem empty_cells_eq_nil_iff (g : Game) :
    empty_cells g = [] ↔
      ∀ i, i < g.width → ∀ j, j < g.height →
        (g.cells i j).cell_type ≠ CellType.Empty := by
  simp only [empty_cells, List.flatMap_eq_nil_iff, List.filterMap_eq_nil_iff, List.mem_range]
  constructor
  · intro h i hi j hj hE
    have := h i hi j hj
    rw [if_pos hE] at this
    exact absurd this (by simp)
  · intro h i hi j hj
    rw [if_neg (h i hi j hj)]

theorem generage_food_err (g : Game) (idx : Nat) (h : empty_cells g = []) :
    generage_food g idx = (g, some "没有足够的空间生成食物") := by
  simp [generage_food, h]

theorem generage_food_ok (g : Game) (idx : Nat) (h : empty_cells g ≠ []) :
    ∃ p, p ∈ empty_cells g ∧
      generage_food g idx = (setCellType g p.1 p.2 CellType.Food, none) := by
  have hne : (empty_cells g).isEmpty = false := List.isEmpty_eq_false.mpr h
  have hlen : 0 < (empty_cells g).length := List.length_pos.mpr h
  have hidx : idx % (empty_cells g).length < (empty_cells g).length :=
    Nat.mod_lt _ hlen
  refine ⟨(empty_cells g).getD (idx % (empty_cells g).length) (0, 0), ?_, ?_⟩
  · rw [List.getD_eq_getElem?_getD, List.getElem?_eq_getElem hidx]
    exact List.getElem_mem hidx
  · simp [generage_food, hne]

theorem generage_food_fst_of_err (g : Game) (idx : Nat) (e : String)
    (h : (generage_food g idx).2 = some e) : (generage_food g idx).1 = g := by
  by_cases hE : (empty_cells g).isEmpty
  · simp [generage_food, hE]
  · simp [generage_food, hE] at h

theorem eat_food_ok (g : Game) (x y idx : Nat) (g' : Game)
    (h : eat_food g x y idx = (g', none)) :
    ∃ g1, generage_food g idx = (g1, none) ∧
      g'.width = g.width ∧ g'.height = g.height ∧
      g'.snack.direction = g.snack.direction ∧
      g'.snack.head = (x, y) ∧
      g'.snack.bodys = g.snack.head :: g.snack.bodys ∧
      g'.score = g.score + 1 ∧
      ∀ i j, g'.cells i j =
        (let c1 :=
          if i = g.snack.head.1 ∧ j = g.snack.head.2 then
            (g1.cells i j).set_type CellType.SnackBody
          else g1.cells i j
         if i = x ∧ j = y then c1.set_type CellType.SnackHead else c1) := by
  unfold eat_food at h
  have hpres : (generage_food g idx).1.width = g.width ∧
      (generage_food g idx).1.height = g.height ∧
      (generage_food g idx).1.snack = g.snack ∧
      (generage_food g idx).1.score = g.score := by
    by_cases hE : (empty_cells g).isEmpty <;> simp [generage_food, hE]
  rcases hgen : generage_food g idx with ⟨g1, r⟩
  rw [hgen] at hpres
  dsimp only at hpres
  obtain ⟨hw, hh, hsnack, hsc⟩ := hpres
  rcases r with _ | e
  · rw [hgen] at h
    simp only [Prod.mk.injEq, and_true] at h
    subst h
    refine ⟨g1, rfl, by simp [hw], by simp [hh], by simp [hsnack], by simp,
      by simp [hsnack], by simp [hsc], ?_⟩
    intro i j
    simp [hsnack]
  · rw [hgen] at h
    simp at h

theorem eat_food_err (g : Game) (x y idx : Nat) (g' : Game) (e : String)
    (h : eat_food g x y idx = (g', some e)) : g' = g := by
  unfold eat_food at h
  rcases hgen : generage_food g idx with ⟨g1, r⟩
  rcases r with _ | e'
  · rw [hgen] at h
    simp at h
  · rw [hgen] at h
    simp only [Prod.mk.injEq] at h
    have h1 : (generage_food g idx).1 = g :=
      generage_food_fst_of_err g idx e' (by rw [hgen])
    rw [hgen] at h1
    simp only at h1
    rw [← h.1]
    exact h1

/-! ## The session invariant -/

/-- The border ring of the grid. -/
def onBorder (g : Game) (i j : Nat) : Prop :=
  i = 0 ∨ j = 0 ∨ i = g.width - 1 ∨ j = g.height - 1

instance (g : Game) (i j : Nat) : Decidable (onBorder g i j) := by
  unfold onBorder
  infer_instance

/-- Strictly inside the border ring. -/
def interior (g : Game) (p : Nat × Nat) : Prop :=
  0 < p.1 ∧ p.1 < g.width - 1 ∧ 0 < p.2 ∧ p.2 < g.height - 1

instance (g : Game) (p : Nat × Nat) : Decidable (interior g p) := by
  unfold interior
  infer_instance

/-- The inductive invariant of a session state: the window is at least
60×20, every cell records its own coordinates, head and body are pairwise
distinct interior coordinates, and the cell typing mirrors the snake and
the wall ring exactly (out-of-bounds entries of the total `cells` function
stay at their initial Empty value and are never read by the code). -/
structure Inv (g : Game) : Prop where
  wide : 60 ≤ g.width
  high : 20 ≤ g.height
  coords_x : ∀ i j, (g.cells i j).x = i
  coords_y : ∀ i j, (g.cells i j).y = j
  head_interior : interior g g.snack.head
  bodys_interior : ∀ p ∈ g.snack.bodys, interior g p
  head_not_in_bodys : g.snack.head ∉ g.snack.bodys
  bodys_nodup : g.snack.bodys.Nodup
  head_char : ∀ i j, i < g.width → j < g.height →
      ((g.cells i j).cell_type = CellType.SnackHead ↔ (i, j) = g.snack.head)
  body_char : ∀ i j, i < g.width → j < g.height →
      ((g.cells i j).cell_type = CellType.SnackBody ↔ (i, j) ∈ g.snack.bodys)
  wall_char : ∀ i j, i < g.width → j < g.height →
      ((g.cells i j).cell_type = CellType.Wall ↔ onBorder g i j)
  oob_empty : ∀ i j, ¬(i < g.width ∧ j < g.height) →
      (g.cells i j).cell_type = CellType.Empty

theorem interior_of_not_border (g : Game) (p : Nat × Nat)
    (h1 : p.1 < g.width) (h2 : p.2 < g.height) (hb : ¬ onBorder g p.1 p.2) :
    interior g p := by
  unfold onBorder at hb
  push_neg at hb
  exact ⟨Nat.pos_of_ne_zero hb.1, by omega, Nat.pos_of_ne_zero hb.2.1, by omega⟩

theorem not_border_of_interior (g : Game) (p : Nat × Nat) (h : interior g p) :
    ¬ onBorder g p.1 p.2 := by
  obtain ⟨a, b, c, d⟩ := h
  unfold onBorder
  omega

theorem interior_bounds (g : Game) (p : Nat × Nat) (h : interior g p) :
    p.1 < g.width ∧ p.2 < g.height := by
  obtain ⟨-, b, -, d⟩ := h
  omega

/-- The coordinate a non-Wall collision result points at: it is the cell one
step from the head in the current heading, it is in bounds, and the reported
type is that cell's type. -/
theorem collision_target (g : Game) (hg : Inv g) (t : CellType) (p : Nat × Nat)
    (h : collision_detection g = (t, p)) :
    p.1 < g.width ∧ p.2 < g.height ∧ (g.cells p.1 p.2).cell_type = t := by
  obtain ⟨hx0, hx1, hy0, hy1⟩ := hg.head_interior
  unfold collision_detection at h
  rcases hdir : g.snack.direction with _ | _ | _ | _ <;> rw [hdir] at h <;> dsimp only at h
  · rw [if_neg (by omega)] at h
    injection h with h1 h2
    subst h1
    subst h2
    exact ⟨by dsimp only; omega, by dsimp only; omega, rfl⟩
  · rw [if_neg (by omega)] at h
    injection h with h1 h2
    subst h1
    subst h2
    exact ⟨by dsimp only; omega, by dsimp only; omega, rfl⟩
  · rw [if_neg (by omega)] at h
    injection h with h1 h2
    subst h1
    subst h2
    exact ⟨by dsimp only; omega, by dsimp only; omega, rfl⟩
  · rw [if_neg (by omega)] at h
    injection h with h1 h2
    subst h1
    subst h2
    exact ⟨by dsimp only; omega, by dsimp only; omega, rfl⟩

theorem interior_congr (g g' : Game) (hw : g'.width = g.width)
    (hh : g'.height = g.height) (p : Nat × Nat) (h : interior g p) :
    interior g' p := by
  unfold interior at h ⊢
  rw [hw, hh]
  exact h

theorem onBorder_congr (g g' : Game) (hw : g'.width = g.width)
    (hh : g'.height = g.height) (i j : Nat) :
    onBorder g' i j ↔ onBorder g i j := by
  unfold onBorder
  rw [hw, hh]

theorem mem_dropLast_iff_of_nodup {α : Type} {l : List α} (hn : l.Nodup)
    (hne : l ≠ []) (a : α) :
    a ∈ l.dropLast ↔ a ∈ l ∧ a ≠ l.getLast hne := by
  have hsplit : l.dropLast ++ [l.getLast hne] = l := List.dropLast_append_getLast hne
  have hlast_notin : l.getLast hne ∉ l.dropLast := by
    rw [← hsplit] at hn
    rcases List.nodup_append.mp hn with ⟨-, -, hdisj⟩
    intro hmem
    exact hdisj hmem (List.mem_singleton_self _)
  constructor
  · intro hmem
    refine ⟨(List.dropLast_sublist l).mem hmem, ?_⟩
    intro heq
    exact hlast_notin (heq ▸ hmem)
  · rintro ⟨hmem, hne'⟩
    rw [← hsplit] at hmem
    rcases List.mem_append.mp hmem with h | h
    · exact h
    · exact absurd (List.mem_singleton.mp h) hne'

/-- A normal move onto an in-bounds Empty cell preserves the invariant. -/
theorem inv_go (g : Game) (hg : Inv g) (x y : Nat)
    (hx : x < g.width) (hy : y < g.height)
    (hE : (g.cells x y).cell_type = CellType.Empty) :
    Inv (go g x y) := by
  have hne_head : (x, y) ≠ g.snack.head := by
    intro h
    have := (hg.head_char x y hx hy).mpr h
    rw [hE] at this
    exact absurd this (by simp)
  have hnotin : (x, y) ∉ g.snack.bodys := by
    intro h
    have := (hg.body_char x y hx hy).mpr h
    rw [hE] at this
    exact absurd this (by simp)
  have hnb : ¬ onBorder g x y := by
    intro h
    have := (hg.wall_char x y hx hy).mpr h
    rw [hE] at this
    exact absurd this (by simp)
  have hint : interior g (x, y) :=
    interior_of_not_border g (x, y) hx hy hnb
  have hcons_ne : (g.snack.head :: g.snack.bodys) ≠ [] := List.cons_ne_nil _ _
  have hcons_nodup : (g.snack.head :: g.snack.bodys).Nodup :=
    List.nodup_cons.mpr ⟨hg.head_not_in_bodys, hg.bodys_nodup⟩
  have ht_def : goTail g = (g.snack.head :: g.snack.bodys).getLast hcons_ne := rfl
  have ht_mem : goTail g ∈ g.snack.head :: g.snack.bodys := by
    rw [ht_def]
    exact List.getLast_mem hcons_ne
  have ht_int : interior g (goTail g) := by
    rcases List.mem_cons.mp ht_mem with h | h
    · rw [h]
      exact hg.head_interior
    · exact hg.bodys_interior _ h
  have hxy_notin_cons : (x, y) ∉ g.snack.head :: g.snack.bodys := by
    rw [List.mem_cons]
    rintro (h | h)
    · exact hne_head h
    · exact hnotin h
  have hxy_ne_t : (x, y) ≠ goTail g := fun h => hxy_notin_cons (h ▸ ht_mem)
  have hmem_dl : ∀ p : Nat × Nat,
      p ∈ (g.snack.head :: g.snack.bodys).dropLast ↔
        p ∈ g.snack.head :: g.snack.bodys ∧ p ≠ goTail g := by
    intro p
    rw [ht_def]
    exact mem_dropLast_iff_of_nodup hcons_nodup hcons_ne p
  have hhd_int := hg.head_interior
  have hhd_b := interior_bounds g _ hhd_int
  have ht_b := interior_bounds g _ ht_int
  refine ⟨?_, ?_, ?_, ?_, ?_, ?_, ?_, ?_, ?_, ?_, ?_, ?_⟩
  · rw [go_width]
    exact hg.wide
  · rw [go_height]
    exact hg.high
  · intro i j
    rw [go_cell_x]
    exact hg.coords_x i j
  · intro i j
    rw [go_cell_y]
    exact hg.coords_y i j
  · rw [go_head]
    exact interior_congr g _ (go_width g x y) (go_height g x y) _ hint
  · intro p hp
    rw [go_bodys] at hp
    rcases List.mem_cons.mp ((hmem_dl p).mp hp).1 with h | h
    · rw [h]
      exact interior_congr g _ (go_width g x y) (go_height g x y) _ hhd_int
    · exact interior_congr g _ (go_width g x y) (go_height g x y) _ (hg.bodys_interior _ h)
  · rw [go_head, go_bodys]
    intro hmem
    exact hxy_notin_cons ((hmem_dl _).mp hmem).1
  · rw [go_bodys]
    exact ((g.snack.head :: g.snack.bodys).dropLast_sublist).nodup hcons_nodup
  · intro i j hi hj
    rw [go_width] at hi
    rw [go_height] at hj
    rw [go_cell_type, go_head]
    by_cases h1 : i = (goTail g).1 ∧ j = (goTail g).2
    · rw [if_pos h1]
      have hijt : (i, j) = goTail g := Prod.ext h1.1 h1.2
      constructor
      · intro h
        exact absurd h (by simp)
      · intro h
        have hcontra : (x, y) = goTail g := by
          rw [← h]
          exact hijt
        exact absurd hcontra hxy_ne_t
    · rw [if_neg h1]
      by_cases h2 : i = x ∧ j = y
      · rw [if_pos h2]
        simp [Prod.ext_iff, h2.1, h2.2]
      · rw [if_neg h2]
        by_cases h3 : i = g.snack.head.1 ∧ j = g.snack.head.2
        · rw [if_pos h3]
          constructor
          · intro h
            exact absurd h (by simp)
          · intro h
            rw [Prod.ext_iff] at h
            exact absurd ⟨h.1, h.2⟩ h2
        · rw [if_neg h3]
          rw [hg.head_char i j hi hj]
          constructor
          · intro h
            rw [Prod.ext_iff] at h
            exact absurd ⟨h.1, h.2⟩ h3
          · intro h
            rw [Prod.ext_iff] at h
            exact absurd ⟨h.1, h.2⟩ h2
  · intro i j hi hj
    rw [go_width] at hi
    rw [go_height] at hj
    rw [go_cell_type, go_bodys, hmem_dl]
    by_cases h1 : i = (goTail g).1 ∧ j = (goTail g).2
    · rw [if_pos h1]
      have hijt : (i, j) = goTail g := Prod.ext h1.1 h1.2
      constructor
      · intro h
        exact absurd h (by simp)
      · rintro ⟨-, hne'⟩
        exact absurd hijt hne'
    · rw [if_neg h1]
      have hijt : (i, j) ≠ goTail g := by
        intro h
        rw [Prod.ext_iff] at h
        exact h1 ⟨h.1, h.2⟩
      by_cases h2 : i = x ∧ j = y
      · rw [if_pos h2]
        have hijxy : (i, j) = (x, y) := Prod.ext (by simpa using h2.1) (by simpa using h2.2)
        constructor
        · intro h
          exact absurd h (by simp)
        · rintro ⟨hmem, -⟩
          exact absurd (hijxy ▸ hmem) hxy_notin_cons
      · rw [if_neg h2]
        by_cases h3 : i = g.snack.head.1 ∧ j = g.snack.head.2
        · rw [if_pos h3]
          have hijhd : (i, j) = g.snack.head := Prod.ext h3.1 h3.2
          simp only [eq_self_iff_true, true_iff]
          constructor
          · rw [hijhd]
            exact List.mem_cons_self _ _
          · exact hijt
        · rw [if_neg h3, hg.body_char i j hi hj]
          constructor
          · intro h
            exact ⟨List.mem_cons_of_mem _ h, hijt⟩
          · rintro ⟨hmem, -⟩
            rcases List.mem_cons.mp hmem with h | h
            · rw [Prod.ext_iff] at h
              exact absurd ⟨h.1, h.2⟩ h3
            · exact h
  · intro i j hi hj
    rw [go_width] at hi
    rw [go_height] at hj
    rw [go_cell_type, onBorder_congr g (go g x y) (go_width g x y) (go_height g x y) i j]
    by_cases h1 : i = (goTail g).1 ∧ j = (goTail g).2
    · rw [if_pos h1]
      have hnbt : ¬ onBorder g i j := by
        rw [h1.1, h1.2]
        exact not_border_of_interior g (goTail g) ht_int
      constructor
      · intro h
        exact absurd h (by simp)
      · intro h
        exact absurd h hnbt
    · rw [if_neg h1]
      by_cases h2 : i = x ∧ j = y
      · rw [if_pos h2]
        have hnbxy : ¬ onBorder g i j := by
          rw [h2.1, h2.2]
          exact hnb
        constructor
        · intro h
          exact absurd h (by simp)
        · intro h
          exact absurd h hnbxy
      · rw [if_neg h2]
        by_cases h3 : i = g.snack.head.1 ∧ j = g.snack.head.2
        · rw [if_pos h3]
          have hnbhd : ¬ onBorder g i j := by
            rw [h3.1, h3.2]
            exact not_border_of_interior g g.snack.head hhd_int
          constructor
          · intro h
            exact absurd h (by simp)
          · intro h
            exact absurd h hnbhd
        · rw [if_neg h3]
          exact hg.wall_char i j hi hj
  · intro i j hoob
    rw [go_width, go_height] at hoob
    rw [go_cell_type]
    have h1 : ¬(i = (goTail g).1 ∧ j = (goTail g).2) := by
      rintro ⟨rfl, rfl⟩
      exact hoob ⟨ht_b.1, ht_b.2⟩
    have h2 : ¬(i = x ∧ j = y) := by
      rintro ⟨rfl, rfl⟩
      exact hoob ⟨hx, hy⟩
    have h3 : ¬(i = g.snack.head.1 ∧ j = g.snack.head.2) := by
      rintro ⟨rfl, rfl⟩
      exact hoob ⟨hhd_b.1, hhd_b.2⟩
    rw [if_neg h1, if_neg h2, if_neg h3]
    exact hg.oob_empty i j hoob

/-- A growth move onto an in-bounds Food cell preserves the invariant. -/
theorem inv_eat_food (g : Game) (hg : Inv g) (x y idx : Nat) (g' : Game)
    (hx : x < g.width) (hy : y < g.height)
    (hF : (g.cells x y).cell_type = CellType.Food)
    (h : eat_food g x y idx = (g', none)) : Inv g' := by
  obtain ⟨g1, hgen, hw', hh', hdir', hhead', hbodys', hsc', hcells⟩ :=
    eat_food_ok g x y idx g' h
  have hnenil : empty_cells g ≠ [] := by
    intro hnil
    rw [generage_food_err g idx hnil] at hgen
    simp at hgen
  obtain ⟨f, hf_mem, hgen_eq⟩ := generage_food_ok g idx hnenil
  have hg1 : g1 = setCellType g f.1 f.2 CellType.Food := by
    rw [hgen_eq] at hgen
    injection hgen with e1 e2
    exact e1.symm
  rw [mem_empty_cells] at hf_mem
  obtain ⟨fi, hfi, fj, hfj, hfE, hfeq⟩ := hf_mem
  have hf : f = (fi, fj) := by
    rw [hfeq, hg.coords_x, hg.coords_y]
  subst hf
  have hfne_head : (fi, fj) ≠ g.snack.head := by
    intro hq
    have := (hg.head_char fi fj hfi hfj).mpr hq
    rw [hfE] at this
    exact absurd this (by simp)
  have hfnotin : (fi, fj) ∉ g.snack.bodys := by
    intro hq
    have := (hg.body_char fi fj hfi hfj).mpr hq
    rw [hfE] at this
    exact absurd this (by simp)
  have hfnb : ¬ onBorder g fi fj := by
    intro hq
    have := (hg.wall_char fi fj hfi hfj).mpr hq
    rw [hfE] at this
    exact absurd this (by simp)
  have hfint : interior g (fi, fj) := interior_of_not_border g (fi, fj) hfi hfj hfnb
  have hne_head : (x, y) ≠ g.snack.head := by
    intro hq
    have := (hg.head_char x y hx hy).mpr hq
    rw [hF] at this
    exact absurd this (by simp)
  have hnotin : (x, y) ∉ g.snack.bodys := by
    intro hq
    have := (hg.body_char x y hx hy).mpr hq
    rw [hF] at this
    exact absurd this (by simp)
  have hnb : ¬ onBorder g x y := by
    intro hq
    have := (hg.wall_char x y hx hy).mpr hq
    rw [hF] at this
    exact absurd this (by simp)
  have hint : interior g (x, y) := interior_of_not_border g (x, y) hx hy hnb
  have hfne_xy : (fi, fj) ≠ (x, y) := by
    intro hq
    rw [Prod.mk.injEq] at hq
    rw [hq.1, hq.2, hF] at hfE
    exact absurd hfE (by simp)
  have hhd_int := hg.head_interior
  have hhd_b := interior_bounds g _ hhd_int
  have hne_head' : ¬(x = g.snack.head.1 ∧ y = g.snack.head.2) := by
    intro hq
    exact hne_head (Prod.ext hq.1 hq.2)
  have hfne_head' : ¬(fi = g.snack.head.1 ∧ fj = g.snack.head.2) := by
    intro hq
    exact hfne_head (Prod.ext hq.1 hq.2)
  have hfne_xy' : ¬(fi = x ∧ fj = y) := by
    intro hq
    exact hfne_xy (Prod.ext hq.1 hq.2)
  have htype : ∀ i j, (g'.cells i j).cell_type =
      (if i = x ∧ j = y then CellType.SnackHead
       else if i = g.snack.head.1 ∧ j = g.snack.head.2 then CellType.SnackBody
       else if i = fi ∧ j = fj then CellType.Food
       else (g.cells i j).cell_type) := by
    intro i j
    rw [hcells i j]
    dsimp only
    rw [hg1]
    simp only [setCellType_cells]
    split_ifs <;> simp [Cell.set_type] <;> omega
  have hcoord_x : ∀ i j, (g'.cells i j).x = i := by
    intro i j
    rw [hcells i j]
    dsimp only
    rw [hg1]
    simp only [setCellType_cells]
    split_ifs <;> simp [hg.coords_x]
  have hcoord_y : ∀ i j, (g'.cells i j).y = j := by
    intro i j
    rw [hcells i j]
    dsimp only
    rw [hg1]
    simp only [setCellType_cells]
    split_ifs <;> simp [hg.coords_y]
  refine ⟨?_, ?_, hcoord_x, hcoord_y, ?_, ?_, ?_, ?_, ?_, ?_, ?_, ?_⟩
  · rw [hw']
    exact hg.wide
  · rw [hh']
    exact hg.high
  · rw [hhead']
    exact interior_congr g g' hw' hh' _ hint
  · intro p hp
    rw [hbodys'] at hp
    rcases List.mem_cons.mp hp with hq | hq
    · rw [hq]
      exact interior_congr g g' hw' hh' _ hhd_int
    · exact interior_congr g g' hw' hh' _ (hg.bodys_interior _ hq)
  · rw [hhead', hbodys']
    rw [List.mem_cons]
    rintro (hq | hq)
    · exact hne_head hq
    · exact hnotin hq
  · rw [hbodys']
    exact List.nodup_cons.mpr ⟨hg.head_not_in_bodys, hg.bodys_nodup⟩
  · intro i j hi hj
    rw [hw'] at hi
    rw [hh'] at hj
    rw [htype, hhead']
    by_cases h2 : i = x ∧ j = y
    · rw [if_pos h2]
      simp [Prod.ext_iff, h2.1, h2.2]
    · rw [if_neg h2]
      by_cases h3 : i = g.snack.head.1 ∧ j = g.snack.head.2
      · rw [if_pos h3]
        constructor
        · intro hq
          exact absurd hq (by simp)
        · intro hq
          rw [Prod.ext_iff] at hq
          exact absurd ⟨hq.1, hq.2⟩ h2
      · rw [if_neg h3]
        by_cases h4 : i = fi ∧ j = fj
        · rw [if_pos h4]
          constructor
          · intro hq
            exact absurd hq (by simp)
          · intro hq
            rw [Prod.ext_iff] at hq
            exact absurd ⟨hq.1, hq.2⟩ h2
        · rw [if_neg h4, hg.head_char i j hi hj]
          constructor
          · intro hq
            rw [Prod.ext_iff] at hq
            exact absurd ⟨hq.1, hq.2⟩ h3
          · intro hq
            rw [Prod.ext_iff] at hq
            exact absurd ⟨hq.1, hq.2⟩ h2
  · intro i j hi hj
    rw [hw'] at hi
    rw [hh'] at hj
    rw [htype, hbodys']
    by_cases h2 : i = x ∧ j = y
    · rw [if_pos h2]
      have hij : (i, j) = (x, y) := Prod.ext h2.1 h2.2
      constructor
      · intro hq
        exact absurd hq (by simp)
      · intro hq
        rw [hij] at hq
        rcases List.mem_cons.mp hq with hr | hr
        · exact absurd hr hne_head
        · exact absurd hr hnotin
    · rw [if_neg h2]
      by_cases h3 : i = g.snack.head.1 ∧ j = g.snack.head.2
      · rw [if_pos h3]
        have hij : (i, j) = g.snack.head := Prod.ext h3.1 h3.2
        simp only [eq_self_iff_true, true_iff]
        rw [hij]
        exact List.mem_cons_self _ _
      · rw [if_neg h3]
        by_cases h4 : i = fi ∧ j = fj
        · rw [if_pos h4]
          have hij : (i, j) = (fi, fj) := Prod.ext h4.1 h4.2
          constructor
          · intro hq
            exact absurd hq (by simp)
          · intro hq
            rw [hij] at hq
            rcases List.mem_cons.mp hq with hr | hr
            · exact absurd hr hfne_head
            · exact absurd hr hfnotin
        · rw [if_neg h4, hg.body_char i j hi hj]
          constructor
          · intro hq
            exact List.mem_cons_of_mem _ hq
          · intro hq
            rcases List.mem_cons.mp hq with hr | hr
            · rw [Prod.ext_iff] at hr
              exact absurd ⟨hr.1, hr.2⟩ h3
            · exact hr
  · intro i j hi hj
    rw [hw'] at hi
    rw [hh'] at hj
    rw [htype, onBorder_congr g g' hw' hh' i j]
    by_cases h2 : i = x ∧ j = y
    · rw [if_pos h2]
      have hnb' : ¬ onBorder g i j := by
        rw [h2.1, h2.2]
        exact hnb
      constructor
      · intro hq
        exact absurd hq (by simp)
      · intro hq
        exact absurd hq hnb'
    · rw [if_neg h2]
      by_cases h3 : i = g.snack.head.1 ∧ j = g.snack.head.2
      · rw [if_pos h3]
        have hnb' : ¬ onBorder g i j := by
          rw [h3.1, h3.2]
          exact not_border_of_interior g g.snack.head hhd_int
        constructor
        · intro hq
          exact absurd hq (by simp)
        · intro hq
          exact absurd hq hnb'
      · rw [if_neg h3]
        by_cases h4 : i = fi ∧ j = fj
        · rw [if_pos h4]
          have hnb' : ¬ onBorder g i j := by
            rw [h4.1, h4.2]
            exact hfnb
          constructor
          · intro hq
            exact absurd hq (by simp)
          · intro hq
            exact absurd hq hnb'
        · rw [if_neg h4]
          exact hg.wall_char i j hi hj
  · intro i j hoob
    rw [hw', hh'] at hoob
    rw [htype]
    have h2 : ¬(i = x ∧ j = y) := by
      rintro ⟨rfl, rfl⟩
      exact hoob ⟨hx, hy⟩
    have h3 : ¬(i = g.snack.head.1 ∧ j = g.snack.head.2) := by
      rintro ⟨rfl, rfl⟩
      exact hoob ⟨hhd_b.1, hhd_b.2⟩
    have h4 : ¬(i = fi ∧ j = fj) := by
      rintro ⟨rfl, rfl⟩
      exact hoob ⟨hfi, hfj⟩
    rw [if_neg h2, if_neg h3, if_neg h4]
    exact hg.oob_empty i j hoob

/-! ## Preservation by `turn_around` and `tick` -/

theorem turn_around_fields (g : Game) (d : Direction) :
    (turn_around g d).width = g.width ∧ (turn_around g d).height = g.height ∧
    (turn_around g d).cells = g.cells ∧ (turn_around g d).snack.head = g.snack.head ∧
    (turn_around g d).snack.bodys = g.snack.bodys ∧ (turn_around g d).score = g.score ∧
    (turn_around g d).speed = g.speed := by
  cases hd : g.snack.direction <;> cases d <;> simp [turn_around, hd]

/-- `turn_around` preserves the invariant: it touches only the heading. -/
theorem inv_turn (g : Game) (hg : Inv g) (d : Direction) : Inv (turn_around g d) := by
  obtain ⟨hw, hh, hc, hhd, hb, hsc, hsp⟩ := turn_around_fields g d
  refine ⟨?_, ?_, ?_, ?_, ?_, ?_, ?_, ?_, ?_, ?_, ?_, ?_⟩
  · rw [hw]
    exact hg.wide
  · rw [hh]
    exact hg.high
  · intro i j
    rw [hc]
    exact hg.coords_x i j
  · intro i j
    rw [hc]
    exact hg.coords_y i j
  · rw [hhd]
    exact interior_congr g _ hw hh _ hg.head_interior
  · intro p hp
    rw [hb] at hp
    exact interior_congr g _ hw hh _ (hg.bodys_interior p hp)
  · rw [hhd, hb]
    exact hg.head_not_in_bodys
  · rw [hb]
    exact hg.bodys_nodup
  · intro i j hi hj
    rw [hw] at hi
    rw [hh] at hj
    rw [hc, hhd]
    exact hg.head_char i j hi hj
  · intro i j hi hj
    rw [hw] at hi
    rw [hh] at hj
    rw [hc, hb]
    exact hg.body_char i j hi hj
  · intro i j hi hj
    rw [hw] at hi
    rw [hh] at hj
    rw [hc, onBorder_congr g _ hw hh i j]
    exact hg.wall_char i j hi hj
  · intro i j hoob
    rw [hw, hh] at hoob
    rw [hc]
    exact hg.oob_empty i j hoob

/-- A successfully completed tick preserves the invariant. -/
theorem inv_tick (g : Game) (hg : Inv g) (idx : Nat) (g' : Game)
    (h : tick g idx = (g', none)) : Inv g' := by
  unfold tick at h
  rcases hcol : collision_detection g with ⟨t, p⟩
  rw [hcol] at h
  obtain ⟨hpw, hph, hptype⟩ := collision_target g hg t p hcol
  cases t
  · simp at h
  · injection h with h1 h2
    rw [← h1]
    exact hg
  · simp at h
  · exact inv_eat_food g hg p.1 p.2 idx g' hpw hph hptype h
  · injection h with h1 h2
    rw [← h1]
    exact inv_go g hg p.1 p.2 hpw hph hptype

/-! ## The invariant holds after construction -/

theorem foldl_setRaw_pres (l : List (Nat × Nat)) (g : Game) (t : CellType) :
    (l.foldl (fun acc p => setCellTypeRaw acc p.1 p.2 t) g).width = g.width ∧
    (l.foldl (fun acc p => setCellTypeRaw acc p.1 p.2 t) g).height = g.height ∧
    (l.foldl (fun acc p => setCellTypeRaw acc p.1 p.2 t) g).snack = g.snack ∧
    (l.foldl (fun acc p => setCellTypeRaw acc p.1 p.2 t) g).score = g.score := by
  induction l generalizing g with
  | nil => exact ⟨rfl, rfl, rfl, rfl⟩
  | cons p l ih =>
      rw [List.foldl_cons]
      exact ih (setCellTypeRaw g p.1 p.2 t)

theorem foldl_setRaw_cells (l : List (Nat × Nat)) (g : Game) (t : CellType) (i j : Nat) :
    (l.foldl (fun acc p => setCellTypeRaw acc p.1 p.2 t) g).cells i j =
      if (i, j) ∈ l then { g.cells i j with cell_type := t } else g.cells i j := by
  induction l generalizing g with
  | nil => simp
  | cons p l ih =>
      rw [List.foldl_cons, ih]
      by_cases hmem : (i, j) ∈ l
      · rw [if_pos hmem, if_pos (List.mem_cons_of_mem _ hmem)]
        simp only [setCellTypeRaw_cells]
        split_ifs <;> rfl
      · rw [if_neg hmem]
        simp only [setCellTypeRaw_cells]
        by_cases hp : i = p.1 ∧ j = p.2
        · rw [if_pos hp, if_pos (List.mem_cons.mpr (Or.inl (Prod.ext hp.1 hp.2)))]
        · rw [if_neg hp, if_neg ?_]
          rw [List.mem_cons]
          rintro (hq | hq)
          · rw [Prod.ext_iff] at hq
            exact hp ⟨hq.1, hq.2⟩
          · exact hmem hq

theorem build_walls_cells (g : Game) (i j : Nat) :
    (build_walls g).cells i j =
      if i < g.width ∧ j < g.height ∧
          (i = 0 ∨ j = 0 ∨ i = g.width - 1 ∨ j = g.height - 1)
      then { g.cells i j with cell_type := CellType.Wall }
      else g.cells i j := rfl

theorem place_snack_cells (g : Game) (i j : Nat) :
    (place_snack g).cells i j =
      (let c1 :=
        if i = g.snack.head.1 ∧ j = g.snack.head.2
        then { g.cells i j with cell_type := CellType.SnackHead }
        else g.cells i j
       if (i, j) ∈ g.snack.bodys then { c1 with cell_type := CellType.SnackBody } else c1) := by
  unfold place_snack
  rw [foldl_setRaw_cells]
  simp only [setCellTypeRaw_cells, setCellTypeRaw_snack]

theorem place_snack_pres (g : Game) :
    (place_snack g).width = g.width ∧ (place_snack g).height = g.height ∧
    (place_snack g).snack = g.snack ∧ (place_snack g).score = g.score := by
  unfold place_snack
  obtain ⟨a, b, c, d⟩ := foldl_setRaw_pres g.snack.bodys
      (setCellTypeRaw g g.snack.head.1 g.snack.head.2 CellType.SnackHead) CellType.SnackBody
  exact ⟨a, b, c, d⟩

/-- The game `Game::new` returns for an accepted window size (the `else`
branch of the size check), named for use in proofs. -/
def fresh_game (w h : Nat) : Game :=
  { width := w
    height := h
    cells := fun i j => { x := i, y := j, changed_flag := false, cell_type := CellType.Empty }
    snack :=
      { direction := Direction.Right
        head := (9, 7)
        bodys := initial_bodys }
    score := 0
    speed := 80 }

theorem Game_new_ok (w h : Nat) (g0 : Game) (h0 : Game.new w h = Except.ok g0) :
    60 ≤ w ∧ 20 ≤ h ∧ g0 = fresh_game w h := by
  unfold Game.new at h0
  by_cases hsz : w < 60 ∨ h < 20
  · rw [if_pos hsz] at h0
    exact absurd h0 (by simp)
  · rw [if_neg hsz] at h0
    push_neg at hsz
    injection h0 with h0'
    exact ⟨hsz.1, hsz.2, h0'.symm⟩

theorem scene_cell_type (w h i j : Nat) :
    (((place_snack (build_walls (fresh_game w h))).cells i j).cell_type) =
      (if (i, j) ∈ initial_bodys then CellType.SnackBody
       else if i = 9 ∧ j = 7 then CellType.SnackHead
       else if i < w ∧ j < h ∧ (i = 0 ∨ j = 0 ∨ i = w - 1 ∨ j = h - 1) then CellType.Wall
       else CellType.Empty) := by
  rw [place_snack_cells]
  dsimp only
  rw [build_walls_cells]
  dsimp only [build_walls, fresh_game]
  split_ifs <;> rfl

theorem scene_cell_x (w h i j : Nat) :
    ((place_snack (build_walls (fresh_game w h))).cells i j).x = i := by
  rw [place_snack_cells]
  dsimp only
  rw [build_walls_cells]
  dsimp only [build_walls, fresh_game]
  split_ifs <;> rfl

theorem scene_cell_y (w h i j : Nat) :
    ((place_snack (build_walls (fresh_game w h))).cells i j).y = j := by
  rw [place_snack_cells]
  dsimp only
  rw [build_walls_cells]
  dsimp only [build_walls, fresh_game]
  split_ifs <;> rfl

/-- Membership in the fixed initial body, in coordinate form. -/
theorem mem_initial_bodys (i j : Nat) :
    (i, j) ∈ initial_bodys ↔
      ((i = 8 ∧ j = 7) ∨ (i = 8 ∧ j = 8) ∨ (i = 7 ∧ j = 8) ∨ (i = 7 ∧ j = 9) ∨
       (i = 7 ∧ j = 10) ∨ (i = 8 ∧ j = 10) ∨ (i = 8 ∧ j = 11)) := by
  simp [initial_bodys, Prod.ext_iff]

/-- The cell typing of the freshly built scene with the first food at
`(fi, fj)`, as a standalone function of the coordinates (proof device). -/
def initType (w h fi fj i j : Nat) : CellType :=
  if i = fi ∧ j = fj then CellType.Food
  else if (i, j) ∈ initial_bodys then CellType.SnackBody
  else if i = 9 ∧ j = 7 then CellType.SnackHead
  else if i < w ∧ j < h ∧ (i = 0 ∨ j = 0 ∨ i = w - 1 ∨ j = h - 1) then CellType.Wall
  else CellType.Empty

theorem initType_head (w h fi fj : Nat) (hfh : ¬(fi = 9 ∧ fj = 7)) (i j : Nat) :
    (initType w h fi fj i j = CellType.SnackHead ↔ (i, j) = (9, 7)) := by
  unfold initType
  by_cases c1 : i = fi ∧ j = fj
  · rw [if_pos c1]
    constructor
    · intro hq
      exact absurd hq (by simp)
    · intro hq
      rw [Prod.mk.injEq] at hq
      exact absurd (⟨by omega, by omega⟩ : fi = 9 ∧ fj = 7) hfh
  · rw [if_neg c1]
    by_cases c2 : (i, j) ∈ initial_bodys
    · rw [if_pos c2]
      constructor
      · intro hq
        exact absurd hq (by simp)
      · intro hq
        rw [hq] at c2
        exact absurd c2 (by decide)
    · rw [if_neg c2]
      by_cases c3 : i = 9 ∧ j = 7
      · rw [if_pos c3]
        simp only [Prod.mk.injEq]
        simp [c3.1, c3.2]
      · rw [if_neg c3]
        by_cases c4 : i < w ∧ j < h ∧ (i = 0 ∨ j = 0 ∨ i = w - 1 ∨ j = h - 1)
        · rw [if_pos c4]
          constructor
          · intro hq
            exact absurd hq (by simp)
          · intro hq
            rw [Prod.mk.injEq] at hq
            exact absurd ⟨hq.1, hq.2⟩ c3
        · rw [if_neg c4]
          constructor
          · intro hq
            exact absurd hq (by simp)
          · intro hq
            rw [Prod.mk.injEq] at hq
            exact absurd ⟨hq.1, hq.2⟩ c3

theorem initType_body (w h fi fj : Nat) (hfb : (fi, fj) ∉ initial_bodys) (i j : Nat) :
    (initType w h fi fj i j = CellType.SnackBody ↔ (i, j) ∈ initial_bodys) := by
  unfold initType
  by_cases c1 : i = fi ∧ j = fj
  · rw [if_pos c1]
    constructor
    · intro hq
      exact absurd hq (by simp)
    · intro hq
      have : (fi, fj) ∈ initial_bodys := by
        rw [← c1.1, ← c1.2]
        exact hq
      exact absurd this hfb
  · rw [if_neg c1]
    by_cases c2 : (i, j) ∈ initial_bodys
    · rw [if_pos c2]
      exact iff_of_true rfl c2
    · rw [if_neg c2]
      by_cases c3 : i = 9 ∧ j = 7
      · rw [if_pos c3]
        constructor
        · intro hq
          exact absurd hq (by simp)
        · intro hq
          exact absurd hq c2
      · rw [if_neg c3]
        by_cases c4 : i < w ∧ j < h ∧ (i = 0 ∨ j = 0 ∨ i = w - 1 ∨ j = h - 1)
        · rw [if_pos c4]
          constructor
          · intro hq
            exact absurd hq (by simp)
          · intro hq
            exact absurd hq c2
        · rw [if_neg c4]
          constructor
          · intro hq
            exact absurd hq (by simp)
          · intro hq
            exact absurd hq c2

theorem initType_wall (w h fi fj : Nat) (hw60 : 60 ≤ w) (hh20 : 20 ≤ h)
    (hfi : fi < w) (hfj : fj < h)
    (hfnb : ¬(fi < w ∧ fj < h ∧ (fi = 0 ∨ fj = 0 ∨ fi = w - 1 ∨ fj = h - 1)))
    (i j : Nat) (hi : i < w) (hj : j < h) :
    (initType w h fi fj i j = CellType.Wall ↔
      (i = 0 ∨ j = 0 ∨ i = w - 1 ∨ j = h - 1)) := by
  unfold initType
  by_cases c1 : i = fi ∧ j = fj
  · rw [if_pos c1]
    constructor
    · intro hq
      exact absurd hq (by simp)
    · intro hq
      exact absurd hq (by omega)
  · rw [if_neg c1]
    by_cases c2 : (i, j) ∈ initial_bodys
    · rw [if_pos c2]
      have c2' := (mem_initial_bodys i j).mp c2
      constructor
      · intro hq
        exact absurd hq (by simp)
      · intro hq
        exact absurd hq (by omega)
    · rw [if_neg c2]
      by_cases c3 : i = 9 ∧ j = 7
      · rw [if_pos c3]
        constructor
        · intro hq
          exact absurd hq (by simp)
        · intro hq
          exact absurd hq (by omega)
      · rw [if_neg c3]
        by_cases c4 : i < w ∧ j < h ∧ (i = 0 ∨ j = 0 ∨ i = w - 1 ∨ j = h - 1)
        · rw [if_pos c4]
          exact iff_of_true rfl c4.2.2
        · rw [if_neg c4]
          constructor
          · intro hq
            exact absurd hq (by simp)
          · intro hq
            exact absurd (⟨hi, hj, hq⟩ :
              i < w ∧ j < h ∧ (i = 0 ∨ j = 0 ∨ i = w - 1 ∨ j = h - 1)) c4

theorem initType_oob (w h fi fj : Nat) (hw60 : 60 ≤ w) (hh20 : 20 ≤ h)
    (hfi : fi < w) (hfj : fj < h) (i j : Nat) (hoob : ¬(i < w ∧ j < h)) :
    initType w h fi fj i j = CellType.Empty := by
  unfold initType
  have n1 : ¬(i = fi ∧ j = fj) := by
    rintro ⟨rfl, rfl⟩
    exact hoob ⟨hfi, hfj⟩
  have n2 : (i, j) ∉ initial_bodys := by
    intro hq
    have hq' := (mem_initial_bodys i j).mp hq
    exact absurd hoob (by omega)
  have n3 : ¬(i = 9 ∧ j = 7) := by
    intro hq
    exact absurd hoob (by omega)
  have n4 : ¬(i < w ∧ j < h ∧ (i = 0 ∨ j = 0 ∨ i = w - 1 ∨ j = h - 1)) := by
    intro hq
    exact hoob ⟨hq.1, hq.2.1⟩
  rw [if_neg n1, if_neg n2, if_neg n3, if_neg n4]

/-- The invariant holds right after a successful construction. -/
theorem inv_init (w h idx : Nat) (g0 g1 : Game)
    (h0 : Game.new w h = Except.ok g0)
    (h1 : build_default g0 idx = (g1, none)) : Inv g1 := by
  obtain ⟨hw60, hh20, hg0⟩ := Game_new_ok w h g0 h0
  subst hg0
  unfold build_default at h1
  have hnenil : empty_cells (place_snack (build_walls (fresh_game w h))) ≠ [] := by
    intro hnil
    rw [generage_food_err _ idx hnil] at h1
    simp at h1
  obtain ⟨f, hf_mem, hgen_eq⟩ := generage_food_ok _ idx hnenil
  have hg1 : g1 =
      setCellType (place_snack (build_walls (fresh_game w h))) f.1 f.2 CellType.Food := by
    rw [hgen_eq] at h1
    injection h1 with e1 e2
    exact e1.symm
  rw [mem_empty_cells] at hf_mem
  obtain ⟨fi, hfi, fj, hfj, hfE, hfeq⟩ := hf_mem
  have hf : f = (fi, fj) := by
    rw [hfeq, scene_cell_x, scene_cell_y]
  subst hf
  have hSw : (place_snack (build_walls (fresh_game w h))).width = w := (place_snack_pres _).1
  have hSh : (place_snack (build_walls (fresh_game w h))).height = h := (place_snack_pres _).2.1
  rw [hSw] at hfi
  rw [hSh] at hfj
  have hf_notin : (fi, fj) ∉ initial_bodys := by
    intro hq
    have h' := hfE
    rw [scene_cell_type w h fi fj, if_pos hq] at h'
    exact absurd h' (by simp)
  have hf_ne_head : ¬(fi = 9 ∧ fj = 7) := by
    intro hq
    have h' := hfE
    rw [scene_cell_type w h fi fj, if_neg hf_notin, if_pos hq] at h'
    exact absurd h' (by simp)
  have hf_nb : ¬(fi < w ∧ fj < h ∧ (fi = 0 ∨ fj = 0 ∨ fi = w - 1 ∨ fj = h - 1)) := by
    intro hq
    have h' := hfE
    rw [scene_cell_type w h fi fj, if_neg hf_notin, if_neg hf_ne_head, if_pos hq] at h'
    exact absurd h' (by simp)
  have hg1w : g1.width = w := by
    rw [hg1, setCellType_width]
    exact hSw
  have hg1h : g1.height = h := by
    rw [hg1, setCellType_height]
    exact hSh
  have hg1snack : g1.snack =
      { direction := Direction.Right, head := (9, 7), bodys := initial_bodys } := by
    rw [hg1, setCellType_snack]
    exact (place_snack_pres _).2.2.1
  have hob : ∀ i j, onBorder g1 i j ↔ (i = 0 ∨ j = 0 ∨ i = w - 1 ∨ j = h - 1) := by
    intro i j
    unfold onBorder
    rw [hg1w, hg1h]
  have htype1 : ∀ i j, (g1.cells i j).cell_type = initType w h fi fj i j := by
    intro i j
    rw [hg1]
    simp only [setCellType_cells]
    unfold initType
    by_cases hfc : i = fi ∧ j = fj
    · rw [if_pos hfc, if_pos hfc]
      simp
    · rw [if_neg hfc, if_neg hfc]
      exact scene_cell_type w h i j
  have hcx : ∀ i j, (g1.cells i j).x = i := by
    intro i j
    rw [hg1]
    simp only [setCellType_cells]
    split_ifs <;> simp [scene_cell_x]
  have hcy : ∀ i j, (g1.cells i j).y = j := by
    intro i j
    rw [hg1]
    simp only [setCellType_cells]
    split_ifs <;> simp [scene_cell_y]
  clear hg1 hgen_eq hnenil hfeq hfE h1 h0
  refine ⟨?_, ?_, hcx, hcy, ?_, ?_, ?_, ?_, ?_, ?_, ?_, ?_⟩
  · rw [hg1w]
    exact hw60
  · rw [hg1h]
    exact hh20
  · rw [hg1snack]
    refine ⟨?_, ?_, ?_, ?_⟩
    · norm_num
    · show 9 < g1.width - 1
      rw [hg1w]
      omega
    · norm_num
    · show 7 < g1.height - 1
      rw [hg1h]
      omega
  · intro p hp
    rw [hg1snack] at hp
    dsimp only at hp
    rcases p with ⟨pi, pj⟩
    rw [mem_initial_bodys] at hp
    refine ⟨?_, ?_, ?_, ?_⟩
    · show 0 < pi
      omega
    · show pi < g1.width - 1
      rw [hg1w]
      omega
    · show 0 < pj
      omega
    · show pj < g1.height - 1
      rw [hg1h]
      omega
  · rw [hg1snack]
    dsimp only
    rw [mem_initial_bodys]
    omega
  · rw [hg1snack]
    dsimp only
    decide
  · intro i j hi hj
    rw [hg1w] at hi
    rw [hg1h] at hj
    rw [htype1 i j, hg1snack]
    exact initType_head w h fi fj hf_ne_head i j
  · intro i j hi hj
    rw [hg1w] at hi
    rw [hg1h] at hj
    rw [htype1 i j, hg1snack]
    exact initType_body w h fi fj hf_notin i j
  · intro i j hi hj
    rw [hg1w] at hi
    rw [hg1h] at hj
    rw [htype1 i j, hob i j]
    exact initType_wall w h fi fj hw60 hh20 hfi hfj hf_nb i j hi hj
  · intro i j hoob
    rw [hg1w, hg1h] at hoob
    rw [htype1 i j]
    exact initType_oob w h fi fj hw60 hh20 hfi hfj i j hoob

/-- Every reachable session state satisfies the invariant. -/
theorem reachable_inv (g : Game) (hg : Reachable g) : Inv g := by
  induction hg with
  | init w h idx g0 g1 h0 h1 => exact inv_init w h idx g0 g1 h0 h1
  | turn g d _ ih => exact inv_turn g ih d
  | step g g' idx _ h ih => exact inv_tick g ih idx g' h

/-! ## Further helper lemmas -/

/-- A failing tick leaves the state exactly as it was, except that a failing
growth move may have already spawned no food (the spawn is the failing
step, which mutates nothing). -/
theorem tick_err (g : Game) (idx : Nat) (g' : Game) (e : String)
    (h : tick g idx = (g', some e)) : g' = g := by
  unfold tick at h
  rcases hcol : collision_detection g with ⟨t, p⟩
  rw [hcol] at h
  cases t
  · injection h with h1 h2
    exact h1.symm
  · simp at h
  · injection h with h1 h2
    exact h1.symm
  · exact eat_food_err g p.1 p.2 idx g' e h
  · simp at h

/-- Any tick result keeps the grid dimensions. -/
theorem tick_dims (g : Game) (idx : Nat) (g' : Game) (r : Option String)
    (h : tick g idx = (g', r)) : g'.width = g.width ∧ g'.height = g.height := by
  unfold tick at h
  rcases hcol : collision_detection g with ⟨t, p⟩
  rw [hcol] at h
  cases t
  · injection h with h1 h2
    rw [← h1]
    exact ⟨rfl, rfl⟩
  · injection h with h1 h2
    rw [← h1]
    exact ⟨rfl, rfl⟩
  · injection h with h1 h2
    rw [← h1]
    exact ⟨rfl, rfl⟩
  · rcases r with _ | e
    · obtain ⟨g1, -, hw', hh', -⟩ := eat_food_ok g p.1 p.2 idx g' h
      exact ⟨hw', hh'⟩
    · rw [eat_food_err g p.1 p.2 idx g' e h]
      exact ⟨rfl, rfl⟩
  · injection h with h1 h2
    rw [← h1]
    exact ⟨go_width g p.1 p.2, go_height g p.1 p.2⟩

theorem mem_allCoords (g : Game) (p : Nat × Nat) :
    p ∈ allCoords g ↔ p.1 < g.width ∧ p.2 < g.height := by
  rcases p with ⟨a, b⟩
  simp [allCoords, List.mem_flatMap, List.mem_range]

/-! ## Concrete session states used as witnesses -/

/-- The game produced by `Game.new 60 20` (the smallest window the
constructor accepts). -/
def demoGame0 : Game :=
  fresh_game 60 20

/-- The scene after the wall and snake passes of `build_default`, before the
first food spawn. -/
def demoScene : Game :=
  place_snack (build_walls demoGame0)

/-- The state right after `build_default` on `demoGame0` with random draw 0. -/
def demoGame : Game :=
  (build_default demoGame0 0).1

/-- The state after one successful tick from `demoGame`. -/
def demoGame2 : Game :=
  (tick demoGame 0).1

theorem demo_new : Game.new 60 20 = Except.ok demoGame0 := rfl

theorem demo_build : build_default demoGame0 0 = (demoGame, none) :=
  Prod.ext rfl (by decide)

theorem demo_reachable : Reachable demoGame :=
  Reachable.init 60 20 0 demoGame0 demoGame demo_new demo_build

theorem demo_tick : tick demoGame 0 = (demoGame2, none) :=
  Prod.ext rfl (by decide)

/-- A game whose grid holds no Empty cell at all, so that the food spawner
must fail. -/
def fullGame : Game :=
  { width := 2
    height := 2
    cells := fun i j => { x := i, y := j, changed_flag := false, cell_type := CellType.Wall }
    snack :=
      { direction := Direction.Right
        head := (1, 1)
        bodys := [] }
    score := 0
    speed := 80 }

/-! ## Claim theorems -/

/-- The total snake length: one head plus the body segments. -/
def total_length (g : Game) : Nat :=
  1 + g.snack.bodys.length

/-- The opposite of a heading, as the spec describes reversal
(Left↔Right, Up↔Down). -/
def opposite (d : Direction) : Direction :=
  match d with
  | Direction.Left => Direction.Right
  | Direction.Right => Direction.Left
  | Direction.Up => Direction.Down
  | Direction.Down => Direction.Up

/-- C1: at every reachable state of a session, the SnackBody-typed cells are
exactly the body sequence's coordinates, the SnackHead-typed cells are
exactly the head coordinate, head and body coordinates are pairwise
distinct, and none of them sits on a Wall-typed cell.  Since every state
produced by construction, `turn_around` or a completed `tick` is reachable,
every tick operation preserves this. -/
theorem C1_snake_cell_typing (g : Game) (hg : Reachable g) :
    (g.snack.head :: g.snack.bodys).Nodup ∧
    (∀ i j, i < g.width → j < g.height →
      ((g.cells i j).cell_type = CellType.SnackBody ↔ (i, j) ∈ g.snack.bodys)) ∧
    (∀ i j, i < g.width → j < g.height →
      ((g.cells i j).cell_type = CellType.SnackHead ↔ (i, j) = g.snack.head)) ∧
    (∀ p ∈ g.snack.head :: g.snack.bodys,
      (g.cells p.1 p.2).cell_type ≠ CellType.Wall) := by
  have hI := reachable_inv g hg
  refine ⟨List.nodup_cons.mpr ⟨hI.head_not_in_bodys, hI.bodys_nodup⟩,
    hI.body_char, hI.head_char, ?_⟩
  intro p hp
  rcases List.mem_cons.mp hp with hq | hq
  · obtain ⟨h1, h2⟩ := interior_bounds g _ hI.head_interior
    rw [hq]
    rw [(hI.head_char _ _ h1 h2).mpr rfl]
    simp
  · obtain ⟨h1, h2⟩ := interior_bounds g _ (hI.bodys_interior p hq)
    rw [(hI.body_char _ _ h1 h2).mpr hq]
    simp

theorem C1_witness :
    (demoGame.snack.head :: demoGame.snack.bodys).Nodup ∧
    (∀ i j, i < demoGame.width → j < demoGame.height →
      ((demoGame.cells i j).cell_type = CellType.SnackBody ↔ (i, j) ∈ demoGame.snack.bodys)) ∧
    (∀ i j, i < demoGame.width → j < demoGame.height →
      ((demoGame.cells i j).cell_type = CellType.SnackHead ↔ (i, j) = demoGame.snack.head)) ∧
    (∀ p ∈ demoGame.snack.head :: demoGame.snack.bodys,
      (demoGame.cells p.1 p.2).cell_type ≠ CellType.Wall) :=
  C1_snake_cell_typing demoGame demo_reachable

/-- C2: across any tick the score never decreases; a tick onto an Empty
cell (a normal move) keeps the total snake length and the score, and a
successful tick onto a Food cell (a growth move) increases both the total
length and the score by exactly 1. -/
theorem C2_move_length_score (g : Game) (idx : Nat) (g' : Game) (r : Option String)
    (h : tick g idx = (g', r)) :
    g.score ≤ g'.score ∧
    ((collision_detection g).1 = CellType.Empty →
      r = none ∧ total_length g' = total_length g ∧ g'.score = g.score) ∧
    ((collision_detection g).1 = CellType.Food → r = none →
      total_length g' = total_length g + 1 ∧ g'.score = g.score + 1) := by
  unfold tick at h
  rcases hcol : collision_detection g with ⟨t, p⟩
  rw [hcol] at h
  cases t
  · injection h with h1 h2
    rw [← h1, ← h2]
    refine ⟨Nat.le_refl _, ?_, ?_⟩
    · intro hq
      exact absurd hq (by simp)
    · intro hq
      exact absurd hq (by simp)
  · injection h with h1 h2
    rw [← h1, ← h2]
    refine ⟨Nat.le_refl _, ?_, ?_⟩
    · intro hq
      exact absurd hq (by simp)
    · intro hq
      exact absurd hq (by simp)
  · injection h with h1 h2
    rw [← h1, ← h2]
    refine ⟨Nat.le_refl _, ?_, ?_⟩
    · intro hq
      exact absurd hq (by simp)
    · intro hq
      exact absurd hq (by simp)
  · rcases r with _ | e
    · obtain ⟨g1, hgen2, hw2, hh2, hdir2, hhead2, hbodys', hsc', hcells2⟩ :=
        eat_food_ok g p.1 p.2 idx g' h
      refine ⟨by rw [hsc']; omega, ?_, ?_⟩
      · intro hq
        exact absurd hq (by simp)
      · intro hq hr
        constructor
        · unfold total_length
          rw [hbodys']
          simp only [List.length_cons]
          omega
        · rw [hsc']
    · have hgg : g' = g := eat_food_err g p.1 p.2 idx g' e h
      subst hgg
      refine ⟨Nat.le_refl _, ?_, ?_⟩
      · intro hq
        exact absurd hq (by simp)
      · intro hq hr
        exact absurd hr (by simp)
  · injection h with h1 h2
    rw [← h1, ← h2]
    refine ⟨by rw [go_score], ?_, ?_⟩
    · intro hq
      refine ⟨rfl, ?_, go_score g p.1 p.2⟩
      unfold total_length
      rw [go_bodys]
      simp only [List.length_dropLast, List.length_cons]
      omega
    · intro hq
      exact absurd hq (by simp)

theorem C2_witness :
    demoGame.score ≤ demoGame2.score ∧
    ((collision_detection demoGame).1 = CellType.Empty →
      (none : Option String) = none ∧
        total_length demoGame2 = total_length demoGame ∧
        demoGame2.score = demoGame.score) ∧
    ((collision_detection demoGame).1 = CellType.Food → (none : Option String) = none →
      total_length demoGame2 = total_length demoGame + 1 ∧
        demoGame2.score = demoGame.score + 1) :=
  C2_move_length_score demoGame 0 demoGame2 none demo_tick

/-- C3: `turn_around r` sets the heading to `r` exactly when `r` is a 90°
turn from the current heading; when `r` equals the heading or its opposite
the heading is unchanged, and in all cases nothing but the heading is
touched. -/
theorem C3_turn_only_90 (g : Game) (r : Direction) :
    ((turn_around g r).snack.direction =
      if r = g.snack.direction ∨ r = opposite g.snack.direction then
        g.snack.direction
      else r) ∧
    (turn_around g r).snack.head = g.snack.head ∧
    (turn_around g r).snack.bodys = g.snack.bodys ∧
    (turn_around g r).cells = g.cells ∧
    (turn_around g r).score = g.score ∧
    (turn_around g r).width = g.width ∧
    (turn_around g r).height = g.height ∧
    (turn_around g r).speed = g.speed := by
  cases hd : g.snack.direction <;> cases r <;>
    simp [turn_around, opposite, hd]

/-- C5: `collision_detection` steps one unit from the head in the current
heading; a step that would make a coordinate negative (left from column 0,
up from row 0) reports a Wall at the default coordinate `(0, 0)`, and
otherwise the result is the type of the cell at the stepped coordinate with
that coordinate.  The Rust body performs no writes, which the embedding
reflects by being a pure function of the state. -/
theorem C5_collision_detection (g : Game) :
    collision_detection g =
      (match g.snack.direction with
       | Direction.Left =>
           if g.snack.head.1 = 0 then (CellType.Wall, (0, 0))
           else ((g.cells (g.snack.head.1 - 1) g.snack.head.2).cell_type,
                 (g.snack.head.1 - 1, g.snack.head.2))
       | Direction.Right =>
           ((g.cells (g.snack.head.1 + 1) g.snack.head.2).cell_type,
            (g.snack.head.1 + 1, g.snack.head.2))
       | Direction.Up =>
           if g.snack.head.2 = 0 then (CellType.Wall, (0, 0))
           else ((g.cells g.snack.head.1 (g.snack.head.2 - 1)).cell_type,
                 (g.snack.head.1, g.snack.head.2 - 1))
       | Direction.Down =>
           ((g.cells g.snack.head.1 (g.snack.head.2 + 1)).cell_type,
            (g.snack.head.1, g.snack.head.2 + 1))) := by
  unfold collision_detection
  cases hd : g.snack.direction <;> dsimp only
  · by_cases h0 : g.snack.head.1 = 0
    · rw [if_pos (by omega), if_pos h0]
    · rw [if_neg (by omega)]
      have e1 : ((g.snack.head.1 : Int) - 1).toNat = g.snack.head.1 - 1 := by omega
      have e2 : ((g.snack.head.2 : Int)).toNat = g.snack.head.2 := by omega
      rw [e1, e2, if_neg h0]
  · rw [if_neg (by omega)]
    have e1 : ((g.snack.head.1 : Int) + 1).toNat = g.snack.head.1 + 1 := by omega
    have e2 : ((g.snack.head.2 : Int)).toNat = g.snack.head.2 := by omega
    rw [e1, e2]
  · by_cases h0 : g.snack.head.2 = 0
    · rw [if_pos (by omega), if_pos h0]
    · rw [if_neg (by omega)]
      have e1 : ((g.snack.head.1 : Int)).toNat = g.snack.head.1 := by omega
      have e2 : ((g.snack.head.2 : Int) - 1).toNat = g.snack.head.2 - 1 := by omega
      rw [e1, e2, if_neg h0]
  · rw [if_neg (by omega)]
    have e1 : ((g.snack.head.1 : Int)).toNat = g.snack.head.1 := by omega
    have e2 : ((g.snack.head.2 : Int) + 1).toNat = g.snack.head.2 + 1 := by omega
    rw [e1, e2]

/-- C10: when the replacement food spawn inside `eat_food` fails because no
Empty cell remains, the error is surfaced with the snake's head, body and
the score exactly as they were before the tick: the spawn is the first
mutation attempted, so nothing has been partially applied. -/
theorem C10_eat_food_atomic (g : Game) (x y idx : Nat) (g' : Game) (e : String)
    (h : eat_food g x y idx = (g', some e)) :
    g'.snack.head = g.snack.head ∧ g'.snack.bodys = g.snack.bodys ∧
      g'.score = g.score := by
  rw [eat_food_err g x y idx g' e h]
  exact ⟨rfl, rfl, rfl⟩

theorem C10_witness :
    fullGame.snack.head = fullGame.snack.head ∧
    fullGame.snack.bodys = fullGame.snack.bodys ∧
    fullGame.score = fullGame.score :=
  C10_eat_food_atomic fullGame 1 0 0 fullGame "没有足够的空间生成食物" rfl

/-- Success form of the food spawner: the new state is exactly one Empty
cell retyped Food. -/
theorem generage_food_ok_eq (g : Game) (idx : Nat) (g1 : Game)
    (h : generage_food g idx = (g1, none)) :
    ∃ p, p ∈ empty_cells g ∧ g1 = setCellType g p.1 p.2 CellType.Food := by
  have hne : empty_cells g ≠ [] := by
    intro hnil
    rw [generage_food_err g idx hnil] at h
    simp at h
  obtain ⟨p, hmem, heq⟩ := generage_food_ok g idx hne
  rw [heq] at h
  injection h with e1 e2
  exact ⟨p, hmem, e1.symm⟩

/-- C4: after a successful scene construction every border-ring cell is
typed Wall, and at any reachable state no Wall-typed cell is retyped by a
`turn_around` or by any tick outcome (successful or failing, food spawn
included). -/
theorem C4_wall_ring :
    (∀ w h idx g0 g1, Game.new w h = Except.ok g0 → build_default g0 idx = (g1, none) →
       ∀ i j, i < g1.width → j < g1.height →
         (i = 0 ∨ j = 0 ∨ i = g1.width - 1 ∨ j = g1.height - 1) →
         (g1.cells i j).cell_type = CellType.Wall) ∧
    (∀ g, Reachable g →
       (∀ d i j, (g.cells i j).cell_type = CellType.Wall →
          ((turn_around g d).cells i j).cell_type = CellType.Wall) ∧
       (∀ idx g' r i j, tick g idx = (g', r) →
          (g.cells i j).cell_type = CellType.Wall →
          (g'.cells i j).cell_type = CellType.Wall)) := by
  constructor
  · intro w h idx g0 g1 h0 h1 i j hi hj hb
    have hI := inv_init w h idx g0 g1 h0 h1
    exact (hI.wall_char i j hi hj).mpr hb
  · intro g hg
    have hI := reachable_inv g hg
    constructor
    · intro d i j hW
      rw [(turn_around_fields g d).2.2.1]
      exact hW
    · intro idx g' r i j ht hW
      have hib : i < g.width ∧ j < g.height := by
        by_contra hoob
        rw [hI.oob_empty i j hoob] at hW
        exact absurd hW (by simp)
      have hb : onBorder g i j := (hI.wall_char i j hib.1 hib.2).mp hW
      rcases r with _ | e
      · have hI2 := inv_tick g hI idx g' ht
        obtain ⟨hw2, hh2⟩ := tick_dims g idx g' none ht
        refine (hI2.wall_char i j ?_ ?_).mpr ?_
        · rw [hw2]
          exact hib.1
        · rw [hh2]
          exact hib.2
        · rw [onBorder_congr g g' hw2 hh2 i j]
          exact hb
      · rw [tick_err g idx g' e ht]
        exact hW

theorem C4_witness :
    (demoGame.cells 0 5).cell_type = CellType.Wall ∧
    ((turn_around demoGame Direction.Up).cells 0 5).cell_type = CellType.Wall :=
  ⟨C4_wall_ring.1 60 20 0 demoGame0 demoGame demo_new demo_build 0 5
      (by decide) (by decide) (Or.inl rfl),
   (C4_wall_ring.2 demoGame demo_reachable).1 Direction.Up 0 5
      (C4_wall_ring.1 60 20 0 demoGame0 demoGame demo_new demo_build 0 5
        (by decide) (by decide) (Or.inl rfl))⟩

/-- C7 counterexample: with heading Right, a buffered released `'w'` would
turn the snake Up on the next frame; but after an unrelated key release
(`'x'`) the buffer holds `'x'` and the frame applies no turn, leaving the
heading Right.  So an unrelated key release does clear the previously
buffered direction, contrary to the claim. -/
theorem C7_counterexample :
    (apply_tmp_key demoGame0
        { code := GKeyCode.Char 'w', kind := GKeyEventKind.Release }).snack.direction =
      Direction.Up ∧
    update_tmp_key { code := GKeyCode.Char 'w', kind := GKeyEventKind.Release }
        { code := GKeyCode.Char 'x', kind := GKeyEventKind.Release } =
      { code := GKeyCode.Char 'x', kind := GKeyEventKind.Release } ∧
    (apply_tmp_key demoGame0
        (update_tmp_key { code := GKeyCode.Char 'w', kind := GKeyEventKind.Release }
          { code := GKeyCode.Char 'x', kind := GKeyEventKind.Release })).snack.direction =
      Direction.Right := by
  refine ⟨?_, ?_, ?_⟩ <;> rfl

/-- C7 amended: the loop buffers only the latest *released* key — a release
of any key, related to a direction or not, replaces the buffer, while
non-release events leave it alone; after an unrelated key release no turn
is applied on the frame (the game, and in particular the heading, is left
untouched) until a direction key release is observed. -/
theorem C7_amended_buffering (tmp e : GKeyEvent) (g : Game) :
    (e.kind = GKeyEventKind.Release → update_tmp_key tmp e = e) ∧
    (e.kind ≠ GKeyEventKind.Release → update_tmp_key tmp e = tmp) ∧
    (∀ c, e.code = GKeyCode.Char c → e.kind = GKeyEventKind.Release →
      c ∉ (['a', 'A', 's', 'S', 'd', 'D', 'w', 'W'] : List Char) →
      apply_tmp_key g (update_tmp_key tmp e) = g) ∧
    (e.code = GKeyCode.Other → e.kind = GKeyEventKind.Release →
      apply_tmp_key g (update_tmp_key tmp e) = g) := by
  refine ⟨?_, ?_, ?_, ?_⟩
  · intro hk
    unfold update_tmp_key
    rw [if_pos hk]
  · intro hk
    unfold update_tmp_key
    rw [if_neg hk]
  · intro c hc hk hnot
    unfold update_tmp_key
    rw [if_pos hk]
    simp only [List.mem_cons, List.not_mem_nil, or_false] at hnot
    push_neg at hnot
    obtain ⟨n1, n2, n3, n4, n5, n6, n7, n8⟩ := hnot
    unfold apply_tmp_key
    rw [hc]
    simp [n1, n2, n3, n4, n5, n6, n7, n8]
  · intro hc hk
    unfold update_tmp_key
    rw [if_pos hk]
    unfold apply_tmp_key
    rw [hc]

theorem C7_witness :
    update_tmp_key initial_tmp_key
        { code := GKeyCode.Char 'x', kind := GKeyEventKind.Release } =
      { code := GKeyCode.Char 'x', kind := GKeyEventKind.Release } ∧
    apply_tmp_key demoGame0
        (update_tmp_key initial_tmp_key
          { code := GKeyCode.Char 'x', kind := GKeyEventKind.Release }) = demoGame0 :=
  ⟨(C7_amended_buffering initial_tmp_key
      { code := GKeyCode.Char 'x', kind := GKeyEventKind.Release } demoGame0).1 rfl,
   (C7_amended_buffering initial_tmp_key
      { code := GKeyCode.Char 'x', kind := GKeyEventKind.Release } demoGame0).2.2.1 'x'
      rfl rfl (by decide)⟩

/-- C8 counterexample: the wall pass of scene construction retypes cell
`(0,0)` from Empty to Wall by direct field assignment, leaving its dirty
flag false — a type change that bypasses the dirty-marking setter. -/
theorem C8_counterexample :
    (demoGame0.cells 0 0).cell_type = CellType.Empty ∧
    ((build_walls demoGame0).cells 0 0).cell_type = CellType.Wall ∧
    ((build_walls demoGame0).cells 0 0).changed_flag = false := by
  refine ⟨rfl, ?_, ?_⟩ <;> rfl

/-- C8 amended: `Cell::set_type` always marks the cell dirty, including a
set to the type the cell already holds; and every type change performed by
a food spawn or by any tick outcome goes through `set_type`, so it leaves
the dirty flag set.  (Scene construction, by contrast, assigns types
directly without marking dirty — see the counterexample — which is harmless
only because the first frame is drawn by `render_all`.) -/
theorem C8_amended_dirty :
    (∀ (c : Cell) (t : CellType),
        (Cell.set_type c t).changed_flag = true ∧ (Cell.set_type c t).cell_type = t) ∧
    (∀ g idx g' r, generage_food g idx = (g', r) → ∀ i j,
        (g'.cells i j).cell_type ≠ (g.cells i j).cell_type →
        (g'.cells i j).changed_flag = true) ∧
    (∀ g idx g' r, tick g idx = (g', r) → ∀ i j,
        (g'.cells i j).cell_type ≠ (g.cells i j).cell_type →
        (g'.cells i j).changed_flag = true) := by
  refine ⟨fun c t => ⟨rfl, rfl⟩, ?_, ?_⟩
  · intro g idx g' r hgen i j hne
    rcases r with _ | e
    · obtain ⟨p, -, hg'⟩ := generage_food_ok_eq g idx g' hgen
      subst hg'
      simp only [setCellType_cells] at hne ⊢
      by_cases hc : i = p.1 ∧ j = p.2
      · rw [if_pos hc]
        rfl
      · rw [if_neg hc] at hne
        exact absurd rfl hne
    · have : g' = g := by
        have h1 := generage_food_fst_of_err g idx e (by rw [hgen])
        rw [hgen] at h1
        exact h1
      subst this
      exact absurd rfl hne
  · intro g idx g' r ht i j hne
    unfold tick at ht
    rcases hcol : collision_detection g with ⟨t, p⟩
    rw [hcol] at ht
    cases t
    · injection ht with h1 h2
      rw [← h1] at hne
      exact absurd rfl hne
    · injection ht with h1 h2
      rw [← h1] at hne
      exact absurd rfl hne
    · injection ht with h1 h2
      rw [← h1] at hne
      exact absurd rfl hne
    · rcases r with _ | e
      · obtain ⟨g1, hgen, -, -, -, -, -, -, hcells⟩ := eat_food_ok g p.1 p.2 idx g' ht
        obtain ⟨q, -, hg1⟩ := generage_food_ok_eq g idx g1 hgen
        rw [hcells i j]
        dsimp only
        by_cases c1 : i = p.1 ∧ j = p.2
        · rw [if_pos c1]
          rfl
        · rw [if_neg c1]
          by_cases c2 : i = g.snack.head.1 ∧ j = g.snack.head.2
          · rw [if_pos c2]
            rfl
          · rw [if_neg c2]
            rw [hg1]
            simp only [setCellType_cells]
            by_cases c3 : i = q.1 ∧ j = q.2
            · rw [if_pos c3]
              rfl
            · rw [if_neg c3]
              exfalso
              apply hne
              rw [hcells i j]
              dsimp only
              rw [if_neg c1, if_neg c2, hg1]
              simp only [setCellType_cells]
              rw [if_neg c3]
      · rw [eat_food_err g p.1 p.2 idx g' e ht] at hne
        exact absurd rfl hne
    · injection ht with h1 h2
      rw [← h1] at hne
      rw [← h1, go_cell_flag]
      by_cases hd : (i = (goTail g).1 ∧ j = (goTail g).2) ∨ (i = p.1 ∧ j = p.2) ∨
          (i = g.snack.head.1 ∧ j = g.snack.head.2)
      · rw [if_pos hd]
      · exfalso
        apply hne
        push_neg at hd
        rw [go_cell_type]
        rw [if_neg, if_neg, if_neg]
        · intro hq
          exact (hd.2.2 hq.1) hq.2
        · intro hq
          exact (hd.2.1 hq.1) hq.2
        · intro hq
          exact (hd.1 hq.1) hq.2

theorem C8_witness : (demoGame2.cells 10 7).changed_flag = true :=
  C8_amended_dirty.2.2 demoGame 0 demoGame2 none demo_tick 10 7 (by decide)

/-- C6: the food spawner fails (with the no-space error and no state
change) exactly when no in-bounds cell is Empty; on success it retypes one
Empty cell Food — never a non-Empty cell — and, assuming no Food cell
existed before, the result has exactly one Food cell; if every border cell
is Wall (as after construction), the spawned cell lies strictly inside the
playable interior. -/
theorem C6_food_spawner (g : Game) (idx : Nat)
    (hcoords : ∀ i j, (g.cells i j).x = i ∧ (g.cells i j).y = j) :
    ((∃ e, generage_food g idx = (g, some e)) ↔
      ∀ i, i < g.width → ∀ j, j < g.height → (g.cells i j).cell_type ≠ CellType.Empty) ∧
    (∀ g', generage_food g idx = (g', none) →
      ∃ i j, i < g.width ∧ j < g.height ∧
        (g.cells i j).cell_type = CellType.Empty ∧
        g' = setCellType g i j CellType.Food ∧
        ((∀ a b, a < g.width → b < g.height → (g.cells a b).cell_type ≠ CellType.Food) →
          ∃! p : Nat × Nat, p.1 < g.width ∧ p.2 < g.height ∧
            (g'.cells p.1 p.2).cell_type = CellType.Food) ∧
        ((∀ a b, a < g.width → b < g.height →
            (a = 0 ∨ b = 0 ∨ a = g.width - 1 ∨ b = g.height - 1) →
            (g.cells a b).cell_type = CellType.Wall) →
          0 < i ∧ i < g.width - 1 ∧ 0 < j ∧ j < g.height - 1)) := by
  constructor
  · constructor
    · rintro ⟨e, he⟩ i hi j hj hE
      by_cases hEmp : (empty_cells g).isEmpty
      · exact (empty_cells_eq_nil_iff g).mp (List.isEmpty_iff.mp hEmp) i hi j hj hE
      · have hne : empty_cells g ≠ [] := by
          intro hnil
          rw [hnil] at hEmp
          exact hEmp rfl
        obtain ⟨p, -, heq⟩ := generage_food_ok g idx hne
        rw [heq] at he
        simp at he
    · intro hall
      exact ⟨"没有足够的空间生成食物",
        generage_food_err g idx ((empty_cells_eq_nil_iff g).mpr hall)⟩
  · intro g' hgen
    obtain ⟨p, hmem, hg'⟩ := generage_food_ok_eq g idx g' hgen
    rw [mem_empty_cells] at hmem
    obtain ⟨i, hi, j, hj, hE, hpeq⟩ := hmem
    have hp : p = (i, j) := by
      rw [hpeq, (hcoords i j).1, (hcoords i j).2]
    subst hp
    refine ⟨i, j, hi, hj, hE, hg', ?_, ?_⟩
    · intro hnofood
      refine ⟨(i, j), ⟨hi, hj, ?_⟩, ?_⟩
      · rw [hg']
        simp
      · rintro ⟨a, b⟩ ⟨ha, hb, htype⟩
        rw [hg'] at htype
        simp only [setCellType_cells] at htype
        by_cases hc : a = (i, j).1 ∧ b = (i, j).2
        · exact Prod.ext hc.1 hc.2
        · rw [if_neg hc] at htype
          exact absurd htype (hnofood a b ha hb)
    · intro hwall
      have hnb : ¬(i = 0 ∨ j = 0 ∨ i = g.width - 1 ∨ j = g.height - 1) := by
        intro hb
        rw [hwall i j hi hj hb] at hE
        exact absurd hE (by simp)
      refine ⟨?_, ?_, ?_, ?_⟩ <;> omega

theorem C6_witness :
    ((∃ e, generage_food demoScene 0 = (demoScene, some e)) ↔
      ∀ i, i < demoScene.width → ∀ j, j < demoScene.height →
        (demoScene.cells i j).cell_type ≠ CellType.Empty) ∧
    (∀ g', generage_food demoScene 0 = (g', none) →
      ∃ i j, i < demoScene.width ∧ j < demoScene.height ∧
        (demoScene.cells i j).cell_type = CellType.Empty ∧
        g' = setCellType demoScene i j CellType.Food ∧
        ((∀ a b, a < demoScene.width → b < demoScene.height →
            (demoScene.cells a b).cell_type ≠ CellType.Food) →
          ∃! p : Nat × Nat, p.1 < demoScene.width ∧ p.2 < demoScene.height ∧
            (g'.cells p.1 p.2).cell_type = CellType.Food) ∧
        ((∀ a b, a < demoScene.width → b < demoScene.height →
            (a = 0 ∨ b = 0 ∨ a = demoScene.width - 1 ∨ b = demoScene.height - 1) →
            (demoScene.cells a b).cell_type = CellType.Wall) →
          0 < i ∧ i < demoScene.width - 1 ∧ 0 < j ∧ j < demoScene.height - 1)) :=
  C6_food_spawner demoScene 0 fun i j =>
    ⟨scene_cell_x 60 20 i j, scene_cell_y 60 20 i j⟩

/-- C9: `render_all` draws every cell in traversal order regardless of its
dirty flag and clears every in-bounds dirty flag; `render_only_updated`
draws exactly the cells whose dirty flag is set (in the same order) and
afterwards every in-bounds flag is clear; consequently `render_all`
followed by `render_only_updated` with no intervening mutation draws zero
cells on the second call. -/
theorem C9_render_roundtrip (g : Game)
    (hcoords : ∀ i j, (g.cells i j).x = i ∧ (g.cells i j).y = j) :
    ((render_all g).1 = allCoords g) ∧
    (∀ i j, i < g.width → j < g.height →
      ((render_all g).2.cells i j).changed_flag = false) ∧
    ((render_only_updated g).1 =
      (allCoords g).filter fun p => (g.cells p.1 p.2).changed_flag) ∧
    (∀ i j, i < g.width → j < g.height →
      ((render_only_updated g).2.cells i j).changed_flag = false) ∧
    ((render_only_updated (render_all g).2).1 = []) := by
  have hf : ∀ p : Nat × Nat, ((g.cells p.1 p.2).x, (g.cells p.1 p.2).y) = p := by
    rintro ⟨a, b⟩
    rw [(hcoords a b).1, (hcoords a b).2]
  refine ⟨?_, ?_, ?_, ?_, ?_⟩
  · show ((allCoords g).map fun p => ((g.cells p.1 p.2).x, (g.cells p.1 p.2).y)) = allCoords g
    rw [List.map_congr_left fun p _ => hf p]
    exact List.map_id _
  · intro i j hi hj
    show (if i < g.width ∧ j < g.height then
        { g.cells i j with changed_flag := false } else g.cells i j).changed_flag = false
    rw [if_pos ⟨hi, hj⟩]
  · show (((allCoords g).filter fun p => (g.cells p.1 p.2).changed_flag).map
        fun p => ((g.cells p.1 p.2).x, (g.cells p.1 p.2).y)) =
      (allCoords g).filter fun p => (g.cells p.1 p.2).changed_flag
    rw [List.map_congr_left fun p _ => hf p]
    exact List.map_id _
  · intro i j hi hj
    show (if i < g.width ∧ j < g.height ∧ (g.cells i j).changed_flag then
        { g.cells i j with changed_flag := false } else g.cells i j).changed_flag = false
    by_cases hflag : (g.cells i j).changed_flag
    · rw [if_pos ⟨hi, hj, hflag⟩]
    · rw [if_neg (by tauto)]
      simpa using hflag
  · show ((((allCoords (render_all g).2).filter
        fun p => ((render_all g).2.cells p.1 p.2).changed_flag).map
        fun p => (((render_all g).2.cells p.1 p.2).x, ((render_all g).2.cells p.1 p.2).y)) = [])
    have hempty : ((allCoords (render_all g).2).filter
        fun p => ((render_all g).2.cells p.1 p.2).changed_flag) = [] := by
      rw [List.filter_eq_nil_iff]
      intro p hp
      rw [mem_allCoords] at hp
      show ¬((if p.1 < g.width ∧ p.2 < g.height then
          { g.cells p.1 p.2 with changed_flag := false } else g.cells p.1 p.2).changed_flag = true)
      rw [if_pos ⟨hp.1, hp.2⟩]
      simp
    rw [hempty]
    rfl

theorem C9_witness :
    ((render_all demoGame).1 = allCoords demoGame) ∧
    (∀ i j, i < demoGame.width → j < demoGame.height →
      ((render_all demoGame).2.cells i j).changed_flag = false) ∧
    ((render_only_updated demoGame).1 =
      (allCoords demoGame).filter fun p => (demoGame.cells p.1 p.2).changed_flag) ∧
    (∀ i j, i < demoGame.width → j < demoGame.height →
      ((render_only_updated demoGame).2.cells i j).changed_flag = false) ∧
    ((render_only_updated (render_all demoGame).2).1 = []) :=
  C9_render_roundtrip demoGame fun i j =>
    ⟨(reachable_inv demoGame demo_reachable).coords_x i j,
     (reachable_inv demoGame demo_reachable).coords_y i j⟩

end RSnack
